import Mathlib

/-!
Verification development for the RG16 (Fairfield Nodal Receiver Gather 1.6-1)
reader of `obspy/io/rg16/core.py`.

The byte source is modelled by `ByteSource`: the length of the byte sequence
together with the big-endian value of the whole sequence, so that every
fixed-offset field read is an arithmetic expression.  Python exceptions are
modelled with `Except RgErr`.  Times are exact rationals (`ℚ`): the source
computes with IEEE-754 doubles, which we model as exact arithmetic; an
`obspy.UTCDateTime` value is modelled by its timestamp as a rational number.
IEEE-754 single-precision sample values are modelled by their 32-bit
big-endian bit patterns (a `ℕ` below `2^32`); negation of an IEEE-754 number
is exactly a flip of the sign bit, modelled by `negF32`.
-/

namespace Rg16

/-- Errors of the decoder.  `truncated` models the `ValueError` raised by the
field reader on a read past the end of the source, `keyError` models a Python
`KeyError` (enum-table or dispatch-dictionary miss, carrying the repr of the
missing key), `zeroDivision` models `ZeroDivisionError`, and `assertionError`
models a failed `assert`. -/
inductive RgErr where
  | truncated
  | keyError (key : String)
  | zeroDivision
  | assertionError
  deriving DecidableEq, Repr

abbrev Exc (α : Type) := Except RgErr α

/-- A byte source: a sequence of `len` bytes `b₀ b₁ … b_{len-1}`, represented
by its length together with the big-endian value `val = Σ bᵢ · 256^(len-1-i)`
of the whole sequence (so `val < 256 ^ len`; the byte at offset `i` is
`val / 256 ^ (len-1-i) % 256`).  This representation makes every fixed-offset
field an arithmetic expression in `val`. -/
structure ByteSource where
  len : ℕ
  val : ℕ
  deriving DecidableEq, Repr

/-- Modelled from the spec: the byte-range access of the field reader `_read`
of `obspy/io/rg16/util.py` (not present in `src/`): "read N bytes at absolute
offset O", yielding their big-endian value; "If the source contains fewer
than `offset + ⌈width⌉` bytes, fails with `TruncatedSource`" (a `ValueError`
in the source). -/
def readBytes (fi : ByteSource) (off n : ℕ) : Exc ℕ :=
  if off + n ≤ fi.len then .ok (fi.val / 256 ^ (fi.len - (off + n)) % 256 ^ n)
  else .error .truncated

/-- Value of the low `k` nibbles of `v` read as binary-coded decimal digits,
most significant nibble first.  Nibbles above 9 are accepted and contribute
their numeric value (spec 4.1). -/
def bcdOfVal (v : ℕ) : ℕ → ℕ
  | 0 => 0
  | k + 1 => bcdOfVal (v / 16) k * 10 + v % 16

/-- Modelled from the spec: `_read(fi, off, n, 'binary')` for a whole-byte
width `n`: unsigned big-endian integer. -/
def readBinary (fi : ByteSource) (off n : ℕ) : Exc ℕ :=
  readBytes fi off n

/-- Modelled from the spec: `_read(fi, off, 0.5, 'binary', high)`: a single
nibble of the byte at `off`, the upper one when `high` is `true`. -/
def readBinaryNibble (fi : ByteSource) (off : ℕ) (high : Bool) : Exc ℕ :=
  (readBytes fi off 1).map (fun b => if high then b / 16 else b % 16)

/-- Modelled from the spec: `_read(fi, off, n, 'bcd')` for a whole-byte width
`n`: packed BCD, most significant nibble first. -/
def readBCD (fi : ByteSource) (off n : ℕ) : Exc ℕ :=
  (readBytes fi off n).map (fun v => bcdOfVal v (2 * n))

/-- Modelled from the spec: `_read(fi, off, 0.5, 'bcd', high)`: a single BCD
nibble. -/
def readBCDNibble (fi : ByteSource) (off : ℕ) (high : Bool) : Exc ℕ :=
  readBinaryNibble fi off high

/-- Modelled from the spec: `_read(fi, off, 1.5, 'bcd', high)`: three BCD
nibbles out of the two bytes at `off`, starting at the upper nibble of the
first byte when `high` is `true`, at its lower nibble otherwise. -/
def readBCD3Nibbles (fi : ByteSource) (off : ℕ) (high : Bool) : Exc ℕ :=
  (readBytes fi off 2).map (fun v =>
    if high then bcdOfVal (v / 16) 3 else bcdOfVal (v % 4096) 3)

/-- The `k` 32-bit big-endian words of a `4 * k` byte value, most significant
word first (bit patterns of IEEE-754 single-precision values). -/
def wordsOfVal (v : ℕ) : ℕ → List ℕ
  | 0 => []
  | k + 1 => v / 4294967296 ^ k % 4294967296 :: wordsOfVal v k

/-- Modelled from the spec: `_read(fi, off, n, 'IEEE')` reading `n` bytes as an
array of `n / 4` big-endian IEEE-754 single-precision values (kept as bit
patterns). -/
def readIEEE (fi : ByteSource) (off nbytes : ℕ) : Exc (List ℕ) :=
  (readBytes fi off nbytes).map (fun v => wordsOfVal v (nbytes / 4))

/-- Modelled from the spec: `_read(fi, off, 4, 'IEEE')`, a single IEEE-754
single-precision value (kept as its bit pattern). -/
def readIEEE1 (fi : ByteSource) (off : ℕ) : Exc ℕ :=
  readBytes fi off 4

/-- IEEE-754 negation of a single-precision bit pattern: flip the sign bit.
This is exact for every input, including zeros, infinities and NaNs. -/
def negF32 (w : ℕ) : ℕ :=
  if w < 2147483648 then w + 2147483648 else w - 2147483648

/-- A decoded header-field value: integer, rational (scaled values and times),
string (translated enum codes), or IEEE-754 bit pattern. -/
inductive Val where
  | n (v : ℕ)
  | q (v : ℚ)
  | s (v : String)
  | w (v : ℕ)
  deriving DecidableEq, Repr

/-- Look a code up in an enum table, `KeyError` on a miss (the Python sources
index a dict with `str(code)`). -/
def legLookup (tbl : List (ℕ × String)) (key : ℕ) : Exc String :=
  match tbl.find? (fun p => p.1 == key) with
  | some p => .ok p.2
  | none => .error (.keyError (Nat.repr key))

/-- Fields of `_read_general_header_1`. -/
structure GeneralHeader1 where
  file_number : ℕ
  sample_format_code : ℕ
  general_constant : ℕ
  time_slice_year : ℕ
  nbr_add_general_header : ℕ
  julian_day : ℕ
  time_slice : ℕ
  manufacturer_code : ℕ
  manufacturer_serial_number : ℕ
  base_scan_interval : ℕ
  polarity_code : ℕ
  record_type : ℕ
  scan_type_per_record : ℕ
  nbr_channel_set : ℕ
  nbr_skew_block : ℕ
  deriving DecidableEq, Repr

/-- `_read_general_header_1`. -/
def read_general_header_1 (fi : ByteSource) : Exc GeneralHeader1 := do
  let file_number ← readBCD fi 0 2
  let sample_format_code ← readBCD fi 2 2
  let general_constant ← readBCD fi 4 6
  let time_slice_year ← readBCD fi 10 1
  let nbr_add_general_header ← readBCDNibble fi 11 true
  let julian_day ← readBCD3Nibbles fi 11 false
  let time_slice ← readBCD fi 13 3
  let manufacturer_code ← readBCD fi 16 1
  let manufacturer_serial_number ← readBCD fi 17 2
  let base_scan_interval ← readBinary fi 22 1
  let polarity_code ← readBinaryNibble fi 23 true
  let record_type ← readBinaryNibble fi 25 true
  let scan_type_per_record ← readBCD fi 27 1
  let nbr_channel_set ← readBCD fi 28 1
  let nbr_skew_block ← readBCD fi 29 1
  pure { file_number := file_number, sample_format_code := sample_format_code,
         general_constant := general_constant, time_slice_year := time_slice_year,
         nbr_add_general_header := nbr_add_general_header, julian_day := julian_day,
         time_slice := time_slice, manufacturer_code := manufacturer_code,
         manufacturer_serial_number := manufacturer_serial_number,
         base_scan_interval := base_scan_interval, polarity_code := polarity_code,
         record_type := record_type, scan_type_per_record := scan_type_per_record,
         nbr_channel_set := nbr_channel_set, nbr_skew_block := nbr_skew_block }

/-- Fields of `_read_general_header_2`. -/
structure GeneralHeader2 where
  extended_file_number : ℕ
  extended_channel_sets_per_scan_type : ℕ
  extended_header_blocks : ℕ
  external_header_blocks : ℕ
  version_number : ℕ
  extended_record_length : ℕ
  general_header_block_number : ℕ
  deriving DecidableEq, Repr

/-- `_read_general_header_2`. -/
def read_general_header_2 (fi : ByteSource) : Exc GeneralHeader2 := do
  let extended_file_number ← readBinary fi 32 3
  let extended_channel_sets_per_scan_type ← readBinary fi 35 2
  let extended_header_blocks ← readBinary fi 37 2
  let external_header_blocks ← readBinary fi 39 3
  let version_number ← readBinary fi 42 2
  let extended_record_length ← readBinary fi 46 3
  let general_header_block_number ← readBinary fi 50 1
  pure { extended_file_number := extended_file_number,
         extended_channel_sets_per_scan_type := extended_channel_sets_per_scan_type,
         extended_header_blocks := extended_header_blocks,
         external_header_blocks := external_header_blocks,
         version_number := version_number,
         extended_record_length := extended_record_length,
         general_header_block_number := general_header_block_number }

/-- Fields of `_read_channel_set`. -/
structure ChannelSet where
  scan_type_number : ℕ
  channel_set_number : ℕ
  channel_set_start_time : ℚ
  channel_set_end_time : ℚ
  optionnal_MP_factor : ℕ
  mp_factor_descaler_multiplier : ℕ
  nbr_channels_in_channel_set : ℕ
  channel_type_code : ℕ
  nbr_sub_scans : ℕ
  gain_control_type : ℕ
  alias_filter_frequency : ℕ
  alias_filter_slope : ℕ
  low_cut_filter_freq : ℕ
  low_cut_filter_slope : ℕ
  notch_filter_freq : ℚ
  notch_2_filter_freq : ℚ
  notch_3_filter_freq : ℚ
  extended_channel_set_number : ℕ
  extended_header_flag : ℕ
  nbr_32_byte_trace_header_extension : ℕ
  vertical_stack_size : ℕ
  RU_channel_number : ℕ
  array_forming : ℕ
  deriving DecidableEq, Repr

/-- `_read_channel_set`. -/
def read_channel_set (fi : ByteSource) (start_byte : ℕ) : Exc ChannelSet := do
  let scan_type_number ← readBCD fi start_byte 1
  let channel_set_number ← readBCD fi (start_byte + 1) 1
  let cs_start ← readBinary fi (start_byte + 2) 2
  let cs_end ← readBinary fi (start_byte + 4) 2
  let optionnal_MP_factor ← readBinary fi (start_byte + 6) 1
  let mp_factor_descaler_multiplier ← readBinary fi (start_byte + 7) 1
  let nbr_channels_in_channel_set ← readBCD fi (start_byte + 8) 2
  let channel_type_code ← readBinaryNibble fi (start_byte + 10) true
  let nbr_sub_scans ← readBCDNibble fi (start_byte + 11) true
  let gain_control_type ← readBCDNibble fi (start_byte + 11) false
  let alias_filter_frequency ← readBCD fi (start_byte + 12) 2
  let alias_filter_slope ← readBCD fi (start_byte + 14) 2
  let low_cut_filter_freq ← readBCD fi (start_byte + 16) 2
  let low_cut_filter_slope ← readBCD fi (start_byte + 18) 2
  let notch_filter_freq ← readBCD fi (start_byte + 20) 2
  let notch_2_filter_freq ← readBCD fi (start_byte + 22) 2
  let notch_3_filter_freq ← readBCD fi (start_byte + 24) 2
  let extended_channel_set_number ← readBinary fi (start_byte + 26) 2
  let extended_header_flag ← readBinaryNibble fi (start_byte + 28) true
  let nbr_32_byte_trace_header_extension ← readBinaryNibble fi (start_byte + 28) false
  let vertical_stack_size ← readBinary fi (start_byte + 29) 1
  let RU_channel_number ← readBinary fi (start_byte + 30) 1
  let array_forming ← readBinary fi (start_byte + 31) 1
  pure { scan_type_number := scan_type_number, channel_set_number := channel_set_number,
         channel_set_start_time := (cs_start : ℚ) * (2 / 1000),
         channel_set_end_time := (cs_end : ℚ) * (2 / 1000),
         optionnal_MP_factor := optionnal_MP_factor,
         mp_factor_descaler_multiplier := mp_factor_descaler_multiplier,
         nbr_channels_in_channel_set := nbr_channels_in_channel_set,
         channel_type_code := channel_type_code, nbr_sub_scans := nbr_sub_scans,
         gain_control_type := gain_control_type,
         alias_filter_frequency := alias_filter_frequency,
         alias_filter_slope := alias_filter_slope,
         low_cut_filter_freq := low_cut_filter_freq,
         low_cut_filter_slope := low_cut_filter_slope,
         notch_filter_freq := (notch_filter_freq : ℚ) / 10,
         notch_2_filter_freq := (notch_2_filter_freq : ℚ) / 10,
         notch_3_filter_freq := (notch_3_filter_freq : ℚ) / 10,
         extended_channel_set_number := extended_channel_set_number,
         extended_header_flag := extended_header_flag,
         nbr_32_byte_trace_header_extension := nbr_32_byte_trace_header_extension,
         vertical_stack_size := vertical_stack_size,
         RU_channel_number := RU_channel_number, array_forming := array_forming }

/-- The loop of `_read_channel_sets`: `n` descriptors, 32 bytes apart. -/
def read_channel_sets_go (fi : ByteSource) : ℕ → ℕ → Exc (List ChannelSet)
  | _, 0 => .ok []
  | start_byte, n + 1 => do
    let cs ← read_channel_set fi start_byte
    let rest ← read_channel_sets_go fi (start_byte + 32) n
    pure (cs :: rest)

/-- `_read_channel_sets` (the dict with keys `'1'..'n'` is modelled as a list
in key order). -/
def read_channel_sets (fi : ByteSource) : Exc (List ChannelSet) := do
  let nbr_channel_set ← readBCD fi 28 1
  read_channel_sets_go fi 64 nbr_channel_set

/-- Fields of `_read_extended_header_1`.  The three `UTCDateTime` values are
modelled by their timestamps. -/
structure ExtHeader1 where
  id_ru : ℕ
  deployment_time : ℚ
  pick_up_time : ℚ
  start_time_ru : ℚ
  deriving DecidableEq, Repr

/-- `_read_extended_header_1`. -/
def read_extended_header_1 (fi : ByteSource) (start_byte : ℕ) : Exc ExtHeader1 := do
  let id_ru ← readBinary fi start_byte 8
  let deployment_time ← readBinary fi (start_byte + 8) 8
  let pick_up_time ← readBinary fi (start_byte + 16) 8
  let start_time_ru ← readBinary fi (start_byte + 24) 8
  pure { id_ru := id_ru,
         deployment_time := (deployment_time : ℚ) / 1000000,
         pick_up_time := (pick_up_time : ℚ) / 1000000,
         start_time_ru := (start_time_ru : ℚ) / 1000000 }

/-- Fields of `_read_extended_header_2`.  `acquisition_drift_window` is an
IEEE-754 value scaled by `1e-6`; it is kept as its raw bit pattern, the spec
claims never inspect it. -/
structure ExtHeader2 where
  acquisition_drift_window : ℕ
  clock_drift : ℚ
  clock_stop_method : String
  frequency_drift : String
  oscillator_type : String
  data_collection_method : String
  nbr_time_slices : ℕ
  nbr_files : ℕ
  file_number : ℕ
  data_decimation : String
  original_base_scan_interval : ℕ
  number_decimation_filter_coefficient : ℕ
  deriving DecidableEq, Repr

/-- `_read_extended_header_2`. -/
def read_extended_header_2 (fi : ByteSource) (start_byte : ℕ) : Exc ExtHeader2 := do
  let acquisition_drift_window ← readIEEE1 fi start_byte
  let clock_drift ← readBinary fi (start_byte + 4) 8
  let clock_stop_key ← readBinary fi (start_byte + 12) 1
  let clock_stop_method ← legLookup
    [(0, "normal"), (1, "storage full"), (2, "power loss"), (3, "reboot")] clock_stop_key
  let freq_drift_key ← readBinary fi (start_byte + 13) 1
  let frequency_drift ← legLookup
    [(0, "not within specification"), (1, "within specification")] freq_drift_key
  let oscillator_key ← readBinary fi (start_byte + 14) 1
  let oscillator_type ← legLookup
    [(0, "control board"), (1, "atomic"), (2, "ovenized"), (3, "double ovenized"),
     (4, "disciplined")] oscillator_key
  let collection_key ← readBinary fi (start_byte + 15) 1
  let data_collection_method ← legLookup
    [(0, "normal"), (1, "continuous"), (2, "shot sliced with guard band")] collection_key
  let nbr_time_slices ← readBinary fi (start_byte + 16) 4
  let nbr_files ← readBinary fi (start_byte + 20) 4
  let file_number ← readBinary fi (start_byte + 24) 4
  let decimation_key ← readBinary fi (start_byte + 28) 1
  let data_decimation ← legLookup
    [(0, "not decimated"), (1, "decimated data")] decimation_key
  let original_base_scan_interval ← readBinary fi (start_byte + 29) 1
  let number_decimation_filter_coefficient ← readBinary fi (start_byte + 30) 2
  pure { acquisition_drift_window := acquisition_drift_window,
         clock_drift := (clock_drift : ℚ) / 1000000000,
         clock_stop_method := clock_stop_method, frequency_drift := frequency_drift,
         oscillator_type := oscillator_type,
         data_collection_method := data_collection_method,
         nbr_time_slices := nbr_time_slices, nbr_files := nbr_files,
         file_number := file_number, data_decimation := data_decimation,
         original_base_scan_interval := original_base_scan_interval,
         number_decimation_filter_coefficient := number_decimation_filter_coefficient }

/-- Fields of `_read_extended_header_3`. -/
structure ExtHeader3 where
  receiver_line_number : ℕ
  receiver_point : ℕ
  receiver_point_index : ℕ
  first_shot_line : ℕ
  first_shot_point : ℕ
  first_shot_point_index : ℕ
  last_shot_line : ℕ
  last_shot_point : ℕ
  last_shot_point_index : ℕ
  deriving DecidableEq, Repr

/-- `_read_extended_header_3`. -/
def read_extended_header_3 (fi : ByteSource) (start_byte : ℕ) : Exc ExtHeader3 := do
  let receiver_line_number ← readBinary fi start_byte 4
  let receiver_point ← readBinary fi (start_byte + 4) 4
  let receiver_point_index ← readBinary fi (start_byte + 8) 1
  let first_shot_line ← readBinary fi (start_byte + 9) 4
  let first_shot_point ← readBinary fi (start_byte + 13) 4
  let first_shot_point_index ← readBinary fi (start_byte + 17) 1
  let last_shot_line ← readBinary fi (start_byte + 18) 4
  let last_shot_point ← readBinary fi (start_byte + 22) 4
  let last_shot_point_index ← readBinary fi (start_byte + 26) 1
  pure { receiver_line_number := receiver_line_number, receiver_point := receiver_point,
         receiver_point_index := receiver_point_index, first_shot_line := first_shot_line,
         first_shot_point := first_shot_point,
         first_shot_point_index := first_shot_point_index,
         last_shot_line := last_shot_line, last_shot_point := last_shot_point,
         last_shot_point_index := last_shot_point_index }

/-- The coefficient loop of `_read_extended_header`: `n` IEEE-754 values, 4
bytes apart. -/
def read_coeffs (fi : ByteSource) : ℕ → ℕ → Exc (List ℕ)
  | _, 0 => .ok []
  | start_byte, n + 1 => do
    let c ← readIEEE1 fi start_byte
    let rest ← read_coeffs fi (start_byte + 4) n
    pure (c :: rest)

/-- The loop over extended headers 4..N of `_read_extended_headers`: block
index `i` runs from 3 to `nbr_extended_headers - 1`; the last block reads
`remain` coefficients, every other one reads 8. -/
def read_extra_headers (fi : ByteSource) (last_i remain : ℕ) : ℕ → ℕ → ℕ → Exc (List (List ℕ))
  | _, _, 0 => .ok []
  | start_byte, i, n + 1 => do
    let h ← read_coeffs fi start_byte (if i = last_i then remain else 8)
    let rest ← read_extra_headers fi last_i remain (start_byte + 32) (i + 1) n
    pure (h :: rest)

/-- The extended-header dict of `_read_extended_headers`: keys `'1'`, `'2'`,
`'3'` have fixed layouts; keys `'4'..` (present when `nbr_extended_headers >
3`) are lists of decimation coefficients, modelled in key order. -/
structure ExtendedHeaders where
  eh1 : ExtHeader1
  eh2 : ExtHeader2
  eh3 : ExtHeader3
  extra : List (List ℕ)
  deriving DecidableEq, Repr

/-- `_read_extended_headers`. -/
def read_extended_headers (fi : ByteSource) : Exc ExtendedHeaders := do
  let nbr_channel_set ← readBCD fi 28 1
  let start_byte := 32 + 32 + 32 * nbr_channel_set
  let eh1 ← read_extended_header_1 fi start_byte
  let eh2 ← read_extended_header_2 fi (start_byte + 32)
  let eh3 ← read_extended_header_3 fi (start_byte + 64)
  let nbr_extended_headers ← readBinary fi 37 2
  let extra ←
    if nbr_extended_headers > 3 then
      read_extra_headers fi (nbr_extended_headers - 1)
        (eh2.number_decimation_filter_coefficient % 8)
        (start_byte + 96) 3 (nbr_extended_headers - 3)
    else pure []
  pure { eh1 := eh1, eh2 := eh2, eh3 := eh3, extra := extra }

/-- The four top-level keys of `_internal_read_initial_headers`. -/
structure InitialHeaders where
  general_header_1 : GeneralHeader1
  general_header_2 : GeneralHeader2
  channel_sets_descriptor : List ChannelSet
  extended_headers : ExtendedHeaders
  deriving DecidableEq, Repr

/-- `_internal_read_initial_headers`. -/
def read_initial_headers (fi : ByteSource) : Exc InitialHeaders := do
  let general_header_1 ← read_general_header_1 fi
  let general_header_2 ← read_general_header_2 fi
  let channel_sets_descriptor ← read_channel_sets fi
  let extended_headers ← read_extended_headers fi
  pure { general_header_1 := general_header_1, general_header_2 := general_header_2,
         channel_sets_descriptor := channel_sets_descriptor,
         extended_headers := extended_headers }

/-- `_read_trace_header`: the two named fields of the 20-byte preamble. -/
def read_trace_header (fi : ByteSource) (trace_block_start : ℕ) : Exc (List (String × Val)) := do
  let trace_number ← readBCD fi (trace_block_start + 4) 2
  let trace_edit_code ← readBinary fi (trace_block_start + 11) 1
  pure [("trace_number", .n trace_number), ("trace_edit_code", .n trace_edit_code)]

/-- `_read_trace_header_1`. -/
def read_trace_header_1 (fi : ByteSource) (trace_block_start : ℕ) : Exc (List (String × Val)) := do
  let pos := trace_block_start + 20
  let extended_receiver_line_nbr ← readBinary fi (pos + 10) 5
  let ext_receiver_point_nbr ← readBinary fi (pos + 15) 5
  let sensor_type ← readBinary fi (pos + 20) 1
  let trace_count_file ← readBinary fi (pos + 21) 4
  pure [("extended_receiver_line_nbr", .n extended_receiver_line_nbr),
        ("extended_receiver_point_nbr", .n ext_receiver_point_nbr),
        ("sensor_type", .n sensor_type),
        ("trace_count_file", .n trace_count_file)]

/-- `_read_trace_header_2`. -/
def read_trace_header_2 (fi : ByteSource) (trace_block_start : ℕ) : Exc (List (String × Val)) := do
  let pos := trace_block_start + 20 + 32
  let shot_line_nbr ← readBinary fi pos 4
  let shot_point ← readBinary fi (pos + 4) 4
  let shot_point_index ← readBinary fi (pos + 8) 1
  let shot_point_pre_plan_x ← readBinary fi (pos + 9) 4
  let shot_point_pre_plan_y ← readBinary fi (pos + 13) 4
  let shot_point_final_x ← readBinary fi (pos + 17) 4
  let shot_point_final_y ← readBinary fi (pos + 21) 4
  let shot_point_final_depth ← readBinary fi (pos + 25) 4
  let source_key ← readBinary fi (pos + 29) 1
  let source_of_final_shot_info ← legLookup
    [(0, "undefined"), (1, "preplan"), (2, "as shot"), (3, "post processed")] source_key
  let energy_key ← readBinary fi (pos + 30) 1
  let energy_source_type ← legLookup
    [(0, "undefined"), (1, "vibroseis"), (2, "dynamite"), (3, "air gun")] energy_key
  pure [("shot_line_nbr", .n shot_line_nbr), ("shot_point", .n shot_point),
        ("shot_point_index", .n shot_point_index),
        ("shot_point_pre_plan_x", .q ((shot_point_pre_plan_x : ℚ) / 10)),
        ("shot_point_pre_plan_y", .q ((shot_point_pre_plan_y : ℚ) / 10)),
        ("shot_point_final_x", .q ((shot_point_final_x : ℚ) / 10)),
        ("shot_point_final_y", .q ((shot_point_final_y : ℚ) / 10)),
        ("shot_point_final_depth", .q ((shot_point_final_depth : ℚ) / 10)),
        ("source_of_final_shot_info", .s source_of_final_shot_info),
        ("energy_source_type", .s energy_source_type)]

/-- `_read_trace_header_3`. -/
def read_trace_header_3 (fi : ByteSource) (trace_block_start : ℕ) : Exc (List (String × Val)) := do
  let pos := trace_block_start + 20 + 32 * 2
  let epoch_time ← readBinary fi pos 8
  let shot_skew_time ← readBinary fi (pos + 8) 8
  let time_shift_clock_correc ← readBinary fi (pos + 16) 8
  let remaining_clock_correction ← readBinary fi (pos + 24) 8
  pure [("epoch_time", .q ((epoch_time : ℚ) / 1000000)),
        ("shot_skew_time", .q ((shot_skew_time : ℚ) / 1000000)),
        ("time_shift_clock_correction", .q ((time_shift_clock_correc : ℚ) / 1000000000)),
        ("remaining_clock_correction", .q ((remaining_clock_correction : ℚ) / 1000000000))]

/-- `_read_trace_header_4`. -/
def read_trace_header_4 (fi : ByteSource) (trace_block_start : ℕ) : Exc (List (String × Val)) := do
  let pos := trace_block_start + 20 + 32 * 3
  let pre_shot_guard_band ← readBinary fi pos 4
  let post_shot_guard_band ← readBinary fi (pos + 4) 4
  let preamp_gain ← readBinary fi (pos + 8) 1
  let clipped_key ← readBinary fi (pos + 9) 1
  let trace_clipped_flag ← legLookup
    [(0, "not clipped"), (1, "digital clip detected"), (2, "analog clip detected")] clipped_key
  let record_key ← readBinary fi (pos + 10) 1
  let record_type_code ← legLookup
    [(2, "test data record"), (8, "normal seismic data record")] record_key
  let shot_key ← readBinary fi (pos + 11) 1
  let shot_status_flag ← legLookup
    [(0, "normal"), (1, "bad-operator specified"), (2, "bad-failed to QC test")] shot_key
  let external_shot_id ← readBinary fi (pos + 12) 4
  let first_break_pick ← readIEEE1 fi (pos + 24)
  let post_processed_rms_noise ← readIEEE1 fi (pos + 28)
  pure [("pre_shot_guard_band", .q ((pre_shot_guard_band : ℚ) / 1000)),
        ("post_shot_guard_band", .q ((post_shot_guard_band : ℚ) / 1000)),
        ("preamp_gain", .n preamp_gain),
        ("trace_clipped_flag", .s trace_clipped_flag),
        ("record_type_code", .s record_type_code),
        ("shot_status_flag", .s shot_status_flag),
        ("external_shot_id", .n external_shot_id),
        ("post_processed_first_break_pick_time", .w first_break_pick),
        ("post_processed_rms_noise", .w post_processed_rms_noise)]

/-- `_read_trace_header_5`. -/
def read_trace_header_5 (fi : ByteSource) (trace_block_start : ℕ) : Exc (List (String × Val)) := do
  let pos := trace_block_start + 20 + 32 * 4
  let receiver_point_pre_plan_x ← readBinary fi (pos + 9) 4
  let receiver_point_pre_plan_y ← readBinary fi (pos + 13) 4
  let receiver_point_final_x ← readBinary fi (pos + 17) 4
  let receiver_point_final_y ← readBinary fi (pos + 21) 4
  let receiver_point_final_depth ← readBinary fi (pos + 25) 4
  let source_key ← readBinary fi (pos + 29) 1
  let source_receiver_info ← legLookup
    [(1, "preplan"),
     (2, "as laid (no navigation sensor)"),
     (3, "as laid (HiPAP only)"),
     (4, "as laid (HiPAP and INS)"),
     (5, "as laid (HiPAP and DVL)"),
     (6, "as laid (HiPAP, DVL and INS)"),
     (7, "post processed (HiPAP only)"),
     (8, "post processed (HiPAP and INS)"),
     (9, "post processed (HiPAP and DVL)"),
     (10, "post processed (HiPAP, DVL ans INS)"),
     (11, "first break analysis")] source_key
  pure [("receiver_point_pre_plan_x", .q ((receiver_point_pre_plan_x : ℚ) / 10)),
        ("receiver_point_pre_plan_y", .q ((receiver_point_pre_plan_y : ℚ) / 10)),
        ("receiver_point_final_x", .q ((receiver_point_final_x : ℚ) / 10)),
        ("receiver_point_final_y", .q ((receiver_point_final_y : ℚ) / 10)),
        ("receiver_point_final_depth", .q ((receiver_point_final_depth : ℚ) / 10)),
        ("source_of_final_receiver_info", .s source_receiver_info)]

/-- `_read_trace_header_6`. -/
def read_trace_header_6 (fi : ByteSource) (trace_block_start : ℕ) : Exc (List (String × Val)) := do
  let pos := trace_block_start + 20 + 32 * 5
  let tilt_matrix_h1x ← readIEEE1 fi pos
  let tilt_matrix_h2x ← readIEEE1 fi (pos + 4)
  let tilt_matrix_vx ← readIEEE1 fi (pos + 8)
  let tilt_matrix_h1y ← readIEEE1 fi (pos + 12)
  let tilt_matrix_h2y ← readIEEE1 fi (pos + 16)
  let tilt_matrix_vy ← readIEEE1 fi (pos + 20)
  let tilt_matrix_h1z ← readIEEE1 fi (pos + 24)
  let tilt_matrix_h2z ← readIEEE1 fi (pos + 28)
  pure [("tilt_matrix_h1x", .w tilt_matrix_h1x), ("tilt_matrix_h2x", .w tilt_matrix_h2x),
        ("tilt_matrix_vx", .w tilt_matrix_vx), ("tilt_matrix_h1y", .w tilt_matrix_h1y),
        ("tilt_matrix_h2y", .w tilt_matrix_h2y), ("tilt_matrix_vy", .w tilt_matrix_vy),
        ("tilt_matrix_h1z", .w tilt_matrix_h1z), ("tilt_matrix_h2z", .w tilt_matrix_h2z)]

/-- `_read_trace_header_7`. -/
def read_trace_header_7 (fi : ByteSource) (trace_block_start : ℕ) : Exc (List (String × Val)) := do
  let pos := trace_block_start + 20 + 32 * 6
  let tilt_matrix_vz ← readIEEE1 fi pos
  let azimuth_degree ← readIEEE1 fi (pos + 4)
  let pitch_degree ← readIEEE1 fi (pos + 8)
  let roll_degree ← readIEEE1 fi (pos + 12)
  let remote_unit_temp ← readIEEE1 fi (pos + 16)
  let remote_unit_humidity ← readIEEE1 fi (pos + 20)
  let orientation_matrix ← readBinary fi (pos + 24) 4
  let gimbal_corrections ← readBinary fi (pos + 28) 1
  pure [("tilt_matrix_vz", .w tilt_matrix_vz), ("azimuth_degree", .w azimuth_degree),
        ("pitch_degree", .w pitch_degree), ("roll_degree", .w roll_degree),
        ("remote_unit_temp", .w remote_unit_temp),
        ("remote_unit_humidity", .w remote_unit_humidity),
        ("orientation_matrix_version_nbr", .n orientation_matrix),
        ("gimbal_corrections", .n gimbal_corrections)]

/-- `_read_trace_header_8`. -/
def read_trace_header_8 (fi : ByteSource) (trace_block_start : ℕ) : Exc (List (String × Val)) := do
  let pos := trace_block_start + 20 + 32 * 7
  let fairfield_test ← readBinary fi pos 4
  let first_test ← readBinary fi (pos + 4) 4
  let second_test ← readBinary fi (pos + 8) 4
  let start_delay ← readBinary fi (pos + 12) 4
  let dc_filter_flag ← readBinary fi (pos + 16) 4
  let dc_filter_frequency ← readIEEE1 fi (pos + 20)
  let preamp_key ← readBinary fi (pos + 24) 4
  let preamp_path ← legLookup
    [(0, "external input selected"),
     (1, "simulated data selected"),
     (2, "pre-amp input shorted to ground"),
     (3, "test oscillator with sensors"),
     (4, "test oscillator without sensors"),
     (5, "common mode test oscillator with sensors"),
     (6, "common mode test oscillator without sensors"),
     (7, "test oscillator on positive sensors with neg sensor grounded"),
     (8, "test oscillator on negative sensors with pos sensor grounded"),
     (9, "test oscillator on positive PA input with neg PA input ground"),
     (10, "test oscillator on negative PA input, with pos PA input ground"),
     (11, "test oscillator on positive PA input, with neg PA input ground, no sensors"),
     (12, "test oscillator on negative PA input, with pos PA input ground, no sensors")]
    preamp_key
  let oscillator_key ← readBinary fi (pos + 28) 4
  let test_oscillator ← legLookup
    [(0, "test oscillator path open"), (1, "test signal selected"),
     (2, "DC reference selected"), (3, "test oscillator path grounded"),
     (4, "DC reference toggle selected")] oscillator_key
  pure [("fairfield_test_analysis_code", .n fairfield_test),
        ("first_test_oscillator_attenuation", .n first_test),
        ("second_test_oscillator_attenuation", .n second_test),
        ("start_delay", .q ((start_delay : ℚ) / 1000000)),
        ("dc_filter_flag", .n dc_filter_flag),
        ("dc_filter_frequency", .w dc_filter_frequency),
        ("preamp_path", .s preamp_path),
        ("test_oscillator_signal_type", .s test_oscillator)]

/-- `_read_trace_header_9`. -/
def read_trace_header_9 (fi : ByteSource) (trace_block_start : ℕ) : Exc (List (String × Val)) := do
  let pos := trace_block_start + 20 + 32 * 8
  let signal_key ← readBinary fi pos 4
  let test_signal_type ← legLookup
    [(0, "pattern is address ramp"),
     (1, "pattern is RU address ramp"),
     (2, "pattern is built from provided values"),
     (3, "pattern is random numbers"),
     (4, "pattern is a walking 1s"),
     (5, "pattern is a walking 0s"),
     (6, "test signal is a specified DC value"),
     (7, "test signal is a pulse train with specified duty cycle"),
     (8, "test signal is a sine wave"),
     (9, "test signal is a dual tone sine"),
     (10, "test signal is an impulse"),
     (11, "test signal is a step function")] signal_key
  let test_signal_freq_1 ← readBinary fi (pos + 4) 4
  let test_signal_freq_2 ← readBinary fi (pos + 8) 4
  let test_signal_amp_1 ← readBinary fi (pos + 12) 4
  let test_signal_amp_2 ← readBinary fi (pos + 16) 4
  let duty_cycle ← readIEEE1 fi (pos + 20)
  let active_duration ← readBinary fi (pos + 24) 4
  let activation_time ← readBinary fi (pos + 28) 4
  pure [("test_signal_generator_signal_type", .s test_signal_type),
        ("test_signal_generator_frequency_1", .q ((test_signal_freq_1 : ℚ) / 1000)),
        ("test_signal_generator_frequency_2", .q ((test_signal_freq_2 : ℚ) / 1000)),
        ("test_signal_generator_amplitude_1", .n test_signal_amp_1),
        ("test_signal_generator_amplitude_2", .n test_signal_amp_2),
        ("test_signal_generator_duty_cycle_percentage", .w duty_cycle),
        ("test_signal_generator_active_duration", .q ((active_duration : ℚ) / 1000000)),
        ("test_signal_generator_activation_time", .q ((activation_time : ℚ) / 1000000))]

/-- `_read_trace_header_10`. -/
def read_trace_header_10 (fi : ByteSource) (trace_block_start : ℕ) : Exc (List (String × Val)) := do
  let pos := trace_block_start + 20 + 32 * 9
  let idle_level ← readBinary fi pos 4
  let active_level ← readBinary fi (pos + 4) 4
  let pattern_1 ← readBinary fi (pos + 8) 4
  let pattern_2 ← readBinary fi (pos + 12) 4
  pure [("test_signal_generator_idle_level", .n idle_level),
        ("test_signal_generator_active_level", .n active_level),
        ("test_signal_generator_pattern_1", .n pattern_1),
        ("test_signal_generator_pattern_2", .n pattern_2)]

/-- The dispatch dictionary `dict_func` of `_read_trace_headers`: looking up a
block number outside `1..10` raises `KeyError(str(i))`, the
`UnknownTraceExtensionBlock` of the spec taxonomy. -/
def trace_header_block (fi : ByteSource) (trace_block_start i : ℕ) : Exc (List (String × Val)) :=
  match i with
  | 1 => read_trace_header_1 fi trace_block_start
  | 2 => read_trace_header_2 fi trace_block_start
  | 3 => read_trace_header_3 fi trace_block_start
  | 4 => read_trace_header_4 fi trace_block_start
  | 5 => read_trace_header_5 fi trace_block_start
  | 6 => read_trace_header_6 fi trace_block_start
  | 7 => read_trace_header_7 fi trace_block_start
  | 8 => read_trace_header_8 fi trace_block_start
  | 9 => read_trace_header_9 fi trace_block_start
  | 10 => read_trace_header_10 fi trace_block_start
  | k => .error (.keyError (Nat.repr k))

/-- The loop of `_read_trace_headers`, processing block numbers `i, i+1, ...`
(`n` of them) and concatenating the decoded fields (dict `update` with
disjoint keys). -/
def read_trace_headers_go (fi : ByteSource) (trace_block_start : ℕ) : ℕ → ℕ → Exc (List (String × Val))
  | _, 0 => .ok []
  | i, n + 1 => do
    let d ← trace_header_block fi trace_block_start i
    let rest ← read_trace_headers_go fi trace_block_start (i + 1) n
    pure (d ++ rest)

/-- `_read_trace_headers`: blocks `1 .. nbr_trace_header`. -/
def read_trace_headers (fi : ByteSource) (trace_block_start nbr_trace_header : ℕ) :
    Exc (List (String × Val)) :=
  read_trace_headers_go fi trace_block_start 1 nbr_trace_header

/-- The `rg16` entry `_make_stats` attaches under `details=True`. -/
structure Rg16Details where
  initial_headers : InitialHeaders
  trace_headers : List (String × Val)
  deriving DecidableEq, Repr

/-- The `Stats` dict built by `_make_stats`.  `starttime` and `endtime` are
`UTCDateTime` values, modelled by their timestamps in seconds. -/
structure RgStats where
  starttime : ℚ
  endtime : ℚ
  sampling_rate : ℕ
  npts : ℕ
  network : String
  station : String
  location : String
  channel : String
  rg16 : Option Rg16Details
  deriving DecidableEq, Repr, Inhabited

/-- An obspy `Trace`, reduced to the interface the decoder populates and the
merger reads back: the sample array (IEEE-754 bit patterns), its numpy dtype
string, and the stats. -/
structure RgTrace where
  data : List ℕ
  dtype : String
  stats : RgStats
  deriving DecidableEq, Repr, Inhabited

/-- `Trace.id`: the dotted `network.station.location.channel` identifier. -/
def RgTrace.id (tr : RgTrace) : String :=
  tr.stats.network ++ "." ++ tr.stats.station ++ "." ++ tr.stats.location ++ "." ++
    tr.stats.channel

/-- Last character of a string (models Python `s[-1]` for the nonempty channel
strings built by `_make_stats`). -/
def lastChar (s : String) : Option Char := s.data.getLast?

/-- The dict `band_map = {2000: 'G', 1000: 'G', 500: 'D', 250: 'D'}`;
indexing it with any other rate raises `KeyError`. -/
def band_map (sampling_rate : ℕ) : Exc String :=
  match sampling_rate with
  | 2000 => .ok "G"
  | 1000 => .ok "G"
  | 500 => .ok "D"
  | 250 => .ok "D"
  | r => .error (.keyError (Nat.repr r))

/-- The dict `standard_component_map = {'2': 'Z', '3': 'N', '4': 'E'}`;
indexing it with any other component string raises `KeyError`. -/
def standard_component_map (component : String) : Exc String :=
  if component = "2" then .ok "Z"
  else if component = "3" then .ok "N"
  else if component = "4" then .ok "E"
  else .error (.keyError component)

/-- The `details=True` part of `_make_stats` (its `if details:` block),
producing the `rg16` entry of the stats dict. -/
def make_stats_details (fi : ByteSource) (trace_block_start : ℕ) (details : Bool) :
    Exc (Option Rg16Details) :=
  if details then do
    let initial_headers ← read_initial_headers fi
    let th ← read_trace_header fi trace_block_start
    let nbr_tr_header_block ← readBinary fi (trace_block_start + 9) 1
    let ths ←
      if nbr_tr_header_block > 0 then
        read_trace_headers fi trace_block_start nbr_tr_header_block
      else pure []
    pure (some { initial_headers := initial_headers, trace_headers := th ++ ths })
  else pure none

/-- `_make_stats`.  `sampling_rate = int(1000 / (base_scan_interval / 16))` is
`16000 / bsi` rounded toward zero, i.e. natural division (a zero
`base_scan_interval` raises `ZeroDivisionError` in the source). -/
def make_stats (fi : ByteSource) (trace_block_start : ℕ) (standard_orientation details : Bool) :
    Exc RgStats := do
  let base_scan_interval ← readBinary fi 22 1
  if base_scan_interval = 0 then .error .zeroDivision
  else do
    let sampling_rate := 16000 / base_scan_interval
    let band ← band_map sampling_rate
    let component_val ← readBinary fi (trace_block_start + 40) 1
    let component ←
      if standard_orientation then standard_component_map (Nat.repr component_val)
      else pure (Nat.repr component_val)
    let chan := band ++ "P" ++ component
    let npts ← readBinary fi (trace_block_start + 27) 3
    let start_val ← readBinary fi (trace_block_start + 20 + 2 * 32) 8
    let start_time : ℚ := (start_val : ℚ) / 1000000
    let end_time : ℚ := start_time + ((npts : ℚ) - 1) * (1 / (sampling_rate : ℚ))
    let network ← readBinary fi (trace_block_start + 20) 3
    let station ← readBinary fi (trace_block_start + 23) 3
    let location ← readBinary fi (trace_block_start + 26) 1
    let rg16 ← make_stats_details fi trace_block_start details
    pure { starttime := start_time, endtime := end_time,
           sampling_rate := sampling_rate, npts := npts,
           network := Nat.repr network, station := Nat.repr station,
           location := Nat.repr location, channel := chan, rg16 := rg16 }

/-- `_make_trace`.  With `headonly` the data is the empty array (numpy dtype
`float64`); otherwise the samples are read as big-endian IEEE-754 singles
(dtype `>f4`) and, when the channel code ends in `'Z'`, negated (`-data`
followed by `astype('>f4')`, i.e. a sign-bit flip of every sample). -/
def make_trace (fi : ByteSource) (trace_block_start : ℕ)
    (headonly standard_orientation details : Bool) : Exc RgTrace := do
  let stats ← make_stats fi trace_block_start standard_orientation details
  if headonly then
    pure { data := [], dtype := "float64", stats := stats }
  else do
    let nbr_trace_extension_block ← readBinary fi (trace_block_start + 9) 1
    let trace_start := trace_block_start + 20 + nbr_trace_extension_block * 32
    let nbr_sample_trace ← readBinary fi (trace_block_start + 27) 3
    let nbr_bytes_trace := 4 * nbr_sample_trace
    let data ← readIEEE fi trace_start nbr_bytes_trace
    let data := if lastChar stats.channel = some 'Z' then data.map negF32 else data
    pure { data := data, dtype := ">f4", stats := stats }

/-- `_cmp_nbr_headers`. -/
def cmp_nbr_headers (fi : ByteSource) : Exc (ℕ × ℕ × ℕ) := do
  let nbr_channel_set_headers ← readBCD fi 28 1
  let nbr_extended_headers ← readBinary fi 37 2
  let nbr_external_headers ← readBinary fi 39 3
  pure (nbr_channel_set_headers, nbr_extended_headers, nbr_external_headers)

/-- `_cmp_nbr_records`: time slices (extended header 2) times the number of
distinct `RU_channel_number` values over the channel-set descriptors. -/
def cmp_nbr_records (fi : ByteSource) : Exc ℕ := do
  let initial_header ← read_initial_headers fi
  let nbr_component :=
    ((initial_header.channel_sets_descriptor.map (fun cs => cs.RU_channel_number)).dedup).length
  pure (initial_header.extended_headers.eh2.nbr_time_slices * nbr_component)

/-- `_cmp_jump`: the byte length of the trace block at `trace_block_start`. -/
def cmp_jump (fi : ByteSource) (trace_block_start : ℕ) : Exc ℕ := do
  let nbr_trace_extension_block ← readBinary fi (trace_block_start + 9) 1
  let nbr_sample_trace ← readBinary fi (trace_block_start + 27) 3
  pure (4 * nbr_sample_trace + (20 + 32 * nbr_trace_extension_block))

/-- The record loop of `_internal_read_rg16`: walk `n` trace blocks starting
at `pos`, keeping the traces whose block start time lies in
`[starttime, endtime)` and advancing by `_cmp_jump` each iteration. -/
def rg16_walk (fi : ByteSource) (headonly contacts_north details : Bool)
    (starttime endtime : ℚ) : ℕ → ℕ → Exc (List RgTrace)
  | _, 0 => .ok []
  | pos, n + 1 => do
    let nbr_bytes_trace_block ← cmp_jump fi pos
    let start_val ← readBinary fi (pos + 20 + 2 * 32) 8
    let starttime_block : ℚ := (start_val : ℚ) / 1000000
    if starttime ≤ starttime_block ∧ starttime_block < endtime then do
      let tr ← make_trace fi pos headonly contacts_north details
      let rest ← rg16_walk fi headonly contacts_north details starttime endtime
        (pos + nbr_bytes_trace_block) n
      pure (tr :: rest)
    else
      rg16_walk fi headonly contacts_north details starttime endtime
        (pos + nbr_bytes_trace_block) n

/-- `_internal_is_rg16`: the probe, catching the truncation `ValueError` and
returning `false` on it. -/
def internal_is_rg16 (fi : ByteSource) : Bool :=
  match readBCD fi 2 2, readBCD fi 16 1, readBinary fi 42 2 with
  | .ok sample_format, .ok manufacturer_code, .ok version =>
    decide (version = 262 ∧ sample_format = 8058) && decide (manufacturer_code = 20)
  | _, _, _ => false

/-- Running sums of `np.cumsum` over booleans (each output element includes
its own position). -/
def cumsum_go (acc : ℕ) : List Bool → List ℕ
  | [] => []
  | b :: bs =>
    let acc2 := acc + (if b then 1 else 0)
    acc2 :: cumsum_go acc2 bs

/-- `np.cumsum` of a boolean array. -/
def cumsum (l : List Bool) : List ℕ := cumsum_go 0 l

/-- `_get_trace_groups` over rows `(id, starttime, endtime)`:
`ids_different[i] = (i == 0) or id[i] != id[i-1]`,
`disjoint[i] = (i < N-1) and |start[i+1] - end[i]| <= diff`
(the source comments call this "endtimes within one sample of starttime of
next row"), and the group array is `cumsum(ids_different & disjoint)`. -/
def get_trace_groups (ar : List (String × ℚ × ℚ)) (diff : ℚ) : List ℕ :=
  match ar with
  | [] => []
  | _ :: tl =>
    let pairs := ar.zip tl
    let ids_different := true :: pairs.map (fun p => decide (¬ p.2.1 = p.1.1))
    let disjoint := pairs.map (fun p => decide (|p.2.2.1 - p.1.2.2| ≤ diff)) ++ [false]
    cumsum (List.zipWith and ids_different disjoint)

/-- Strict lexicographic comparison of character lists by code point. -/
def charListLt : List Char → List Char → Bool
  | [], [] => false
  | [], _ :: _ => true
  | _ :: _, [] => false
  | a :: as, b :: bs => if a < b then true else if b < a then false else charListLt as bs

/-- Python string `<`: lexicographic by code point. -/
def strLt (a b : String) : Bool := charListLt a.data b.data

/-- The comparison key of `_trace_list_to_rec_array`'s
`np.argsort(ar, order=['id', 'starttime'])`: lexicographic on
`(id, starttime)`. -/
def rec_array_le (a b : RgTrace) : Bool :=
  strLt a.id b.id || (decide (a.id = b.id) && decide (a.stats.starttime ≤ b.stats.starttime))

/-- Insert into a list sorted by `rec_array_le`. -/
def sort_insert (x : RgTrace) : List RgTrace → List RgTrace
  | [] => [x]
  | y :: l => if rec_array_le x y then x :: y :: l else y :: sort_insert x l

/-- Sort by `rec_array_le` (insertion sort).  The source sorts with
`np.argsort`, whose order on rows with equal `(id, starttime)` keys is
unspecified; any sort by the same key models it. -/
def sort_by_key : List RgTrace → List RgTrace
  | [] => []
  | x :: l => sort_insert x (sort_by_key l)

/-- `_trace_list_to_rec_array`, reduced to the sorted trace list (the two
parallel record arrays are sorted with the same index permutation, so the
model keeps the traces themselves in sorted order). -/
def trace_list_to_rec_array (traces : List RgTrace) : List RgTrace :=
  sort_by_key traces

/-- `_quick_merge`.  The two `assert`s on a single sampling rate and a single
dtype are modelled as `assertionError` on violation (the Python set
comprehension over an empty trace list also fails them).  A zero sampling
rate makes `1. / sampling_rate` raise `ZeroDivisionError`.  `np.unique` of
the nondecreasing cumsum group array is its `dedup`.  For every group number
`g` of the group array the selected member list is nonempty, so the `headD`
defaults are never used (`np.concatenate` would raise on an empty
selection). -/
def quick_merge (traces : List RgTrace) : Exc (List RgTrace) :=
  if ¬ ((traces.map (fun tr => tr.stats.sampling_rate)).dedup.length = 1) then
    .error .assertionError
  else if ¬ ((traces.map (fun tr => tr.dtype)).dedup.length = 1) then
    .error .assertionError
  else
    match traces with
    | [] => .error .assertionError
    | t0 :: _ =>
      if t0.stats.sampling_rate = 0 then .error .zeroDivision
      else
        let diff : ℚ := 1 / (t0.stats.sampling_rate : ℚ) + 1 / 1000000
        let sorted := trace_list_to_rec_array traces
        let ar := sorted.map (fun tr => (tr.id, tr.stats.starttime, tr.stats.endtime))
        let group := get_trace_groups ar diff
        let zipped := group.zip sorted
        .ok ((group.dedup).map (fun gnum =>
          let members := (zipped.filter (fun p => p.1 == gnum)).map (fun p => p.2)
          let new_data := (members.map (fun tr => tr.data)).foldr (· ++ ·) []
          let new_stats := (members.map (fun tr => tr.stats)).headD default
          { data := new_data,
            dtype := (members.map (fun tr => tr.dtype)).headD "",
            stats := { new_stats with npts := new_data.length } }))

/-- `_internal_read_rg16`.  The `starttime`/`endtime` window is passed as the
pair of timestamps the source compares against (`_read_rg16` defaults them to
the epoch and to the local wall clock).  The returned `Stream` is modelled by
its trace list. -/
def internal_read_rg16 (fi : ByteSource) (headonly : Bool) (starttime endtime : ℚ)
    (merge contacts_north details : Bool) : Exc (List RgTrace) := do
  let hdrs ← cmp_nbr_headers fi
  let nbr_records ← cmp_nbr_records fi
  let trace_block_start := 32 * (2 + hdrs.1 + hdrs.2.1 + hdrs.2.2)
  let traces ← rg16_walk fi headonly contacts_north details starttime endtime
    trace_block_start nbr_records
  if merge then quick_merge traces else pure traces


/-- A well-formed 316-byte RG16 source: sample format 8058 (bytes 2-3), \
manufacturer 20 (byte 16), version 262 (bytes 42-43), base scan interval 32 \
(byte 22, hence 500 Hz), 1 channel set (byte 28) with `RU_channel_number` 1, \
3 extended headers (bytes 37-38), 0 external headers, 1 time slice, and one \
trace block at byte 192 with 3 extension blocks, npts 2, component 2, \
network 1 / station 2 / location 0, block start time 2000000 microseconds \
and samples `1.0f` (`0x3F800000`) and `-2.0f` (`0xC0000000`). -/
def F262 : ByteSource :=
  ⟨316,
   771762846164434271763784727359795724805401357785036120245312829308053857215513517652024605904911199532772061431225281047459154468899591206278618715207666869625864182562907322490947080465203778895816316816364349536018867578416366379046074877162512235387473087334983727421620036755340412036061194304675254535699265958590533608415384857070512238431629767574270211257975031214655283180106209100633610891997465935072275446737779422650200461385975062775239056671573850902163639006345476507656039816359178924206887979705436623961687147309138977539062601047296562509135861976090313236378921152614692270027155991125618774292354665224491934781266696038870551930236396350990829361020218636108003488995491391717110504223129725385358617672895291705261754943366292832256⟩

/-- `F262` with the version field (bytes 42-43) set to 261 instead of 262. -/
def F261 : ByteSource :=
  ⟨316,
   771762846164434271763784727359795724805401357785036120245312829308053857215513517652024605904911199521775154113481232846278915277714789327408592355253415705817077190738918930450225385508429238282304446143449162568344370232720983733615963053078711879816936678784235490099124480114744514085156927326419334235205059895264089964377307796202652559578056632110580635241537841696468483746217633699603400016320620690415691535603701028773778583746063405727695986276108863059993176207001708982262824624749404851016602172971419233690876889611434231533551216456938280265967156478561637871551719654536703556119853295054839753007441079823735212029373052732372922551593190027680271171772146804390195129039960942730628617473813550028934241945021694531795477215505935237120⟩

/-- A well-formed 568-byte RG16 source: the general and extended headers of \
`F262`, and one trace block at byte 192 with 11 trace extension blocks \
(byte 201), npts 1, component 2, block start time 2000000 microseconds, one \
sample `1.0f`, and enum codes inside extension blocks 4 and 5 chosen so that \
all ten defined extension blocks decode (record type 8, receiver info 1). -/
def F568 : ByteSource :=
  ⟨568,
   5807044120763494936853723190449375536542240687953784588218855992251310754322796488518296952196552424519215110275335128929682720723224255344483475210152026976935940300261744576232043664126832868564451214568416104961844139699449862726810114136397711013683864517735838231640448355904815854379347185499155047567676478813157983185262619918949297467929516707771484528547088213547408083476737601655427676523444577814930144399141416149191832669491147940251840094924542224922711390789725143001698348970406818421732100222554399583511660936651268205646955910413686047780735168451567145961564567450178943249165633618234020013465862386071020205153627579704104025821327847296519512378808832436356328067560751241994710774855238190454443948208866004452935644368976945507431492088795698388849528047890129199396833118796808412262310533445738100773323995908817834434241416352601213462737481366410817438985490784379284885192976075425760350089991223106861130036964895234064412909040204452918352259624440532402403499727508886848344715204711374964006529598712613688466253633663478651320499435311796052034438324964596858950096184149672871235538363727613277426687237212910367292869458226517579775285063757229118859939268588602539551094548497258245605928554173853737273331792051490741008625245392397953410707532127534625442045247746584933820786955787699383350701668118385035955524882923520⟩


/-- The single trace of `F262` (and of `F261`), decoded with
`contacts_north = false`. -/
def TR262 : RgTrace :=
  { data := [1065353216, 3221225472], dtype := ">f4",
    stats := { starttime := 2, endtime := mkRat 1001 500, sampling_rate := 500, npts := 2,
               network := "1", station := "2", location := "0", channel := "DP2",
               rg16 := none } }

/-- The single trace of `F262` decoded with `contacts_north = true`: channel
`DPZ` and both samples sign-flipped. -/
def TRZ262 : RgTrace :=
  { data := [3212836864, 1073741824], dtype := ">f4",
    stats := { starttime := 2, endtime := mkRat 1001 500, sampling_rate := 500, npts := 2,
               network := "1", station := "2", location := "0", channel := "DPZ",
               rg16 := none } }

/-- The single trace of `F568`, decoded with `details = false`. -/
def TR568 : RgTrace :=
  { data := [1065353216], dtype := ">f4",
    stats := { starttime := 2, endtime := 2, sampling_rate := 500, npts := 1,
               network := "1", station := "2", location := "0", channel := "DP2",
               rg16 := none } }

/-- A one-sample trace spanning `[0, 0]` on channel `1.1.0.DP2` at 500 Hz. -/
def TA : RgTrace :=
  { data := [10], dtype := ">f4",
    stats := { starttime := 0, endtime := 0, sampling_rate := 500, npts := 1,
               network := "1", station := "1", location := "0", channel := "DP2",
               rg16 := none } }

/-- A one-sample trace on the same channel id as `TA` whose start time is
1000 seconds after `TA`'s end time: far beyond the merge tolerance
`1/500 + 1e-6`. -/
def TB : RgTrace :=
  { data := [20], dtype := ">f4",
    stats := { starttime := 1000, endtime := 1000, sampling_rate := 500, npts := 1,
               network := "1", station := "1", location := "0", channel := "DP2",
               rg16 := none } }

/-- A one-sample trace on the same channel id as `TA` starting one sample
interval after `TA`'s end time (contiguous with `TA`). -/
def TC : RgTrace :=
  { data := [30], dtype := ">f4",
    stats := { starttime := mkRat 1 500, endtime := mkRat 1 500, sampling_rate := 500, npts := 1,
               network := "1", station := "1", location := "0", channel := "DP2",
               rg16 := none } }

/-- The byte positions of the `n` consecutive trace blocks starting at `pos`:
each block's start is the previous block's start plus its `_cmp_jump` byte
length (the cursor advance of `_internal_read_rg16`). -/
def blockPositions (fi : ByteSource) : ℕ → ℕ → Exc (List ℕ)
  | _, 0 => .ok []
  | pos, n + 1 => do
    let len ← cmp_jump fi pos
    let rest ← blockPositions fi (pos + len) n
    pure (pos :: rest)

/-- The start time of the trace block at `p`: the 8-byte big-endian integer
at block offset `20 + 2*32` divided by `10^6` (seconds since the epoch). -/
def blockTime (fi : ByteSource) (p : ℕ) : Exc ℚ :=
  (readBinary fi (p + 20 + 2 * 32) 8).map (fun (v : ℕ) => (v : ℚ) / 1000000)

deriving instance DecidableEq for Except

theorem ok_bind {α β : Type} (a : α) (f : α → Exc β) :
    (Except.ok a >>= f : Exc β) = f a := rfl

theorem error_bind {α β : Type} (e : RgErr) (f : α → Exc β) :
    ((Except.error e : Exc α) >>= f) = .error e := rfl

theorem pure_eq_ok {α : Type} (a : α) : (pure a : Exc α) = .ok a := rfl

theorem bind_ok_iff {α β : Type} {x : Exc α} {f : α → Exc β} {b : β} :
    (x >>= f) = .ok b ↔ ∃ a, x = .ok a ∧ f a = .ok b := by
  cases x with
  | ok a => simp [ok_bind]
  | error e => simp [error_bind]

theorem map_ok_iff {α β : Type} {x : Exc α} {f : α → β} {b : β} :
    x.map f = .ok b ↔ ∃ a, x = .ok a ∧ f a = b := by
  cases x <;> simp [Except.map]

/-- The record loop of `_internal_read_rg16`, characterized: when the walk
over `n` blocks starting at `pos` succeeds, the cursor visits exactly the
positions given by `blockPositions` (advancing by the full `_cmp_jump` block
length whether or not a trace is kept), every visited block has a readable
start time, a kept block decodes, and the returned traces are exactly the
decoded traces of the blocks whose start time `t` satisfies
`starttime ≤ t < endtime`, in file order. -/
theorem rg16_walk_split (fi : ByteSource) (ho cn det : Bool) (sT eT : ℚ) (n : ℕ) :
    ∀ (pos : ℕ) (ts : List RgTrace),
      rg16_walk fi ho cn det sT eT pos n = .ok ts →
      ∃ ps : List ℕ,
        blockPositions fi pos n = .ok ps ∧
        (∀ p ∈ ps, ∃ t, blockTime fi p = .ok t ∧
          ((sT ≤ t ∧ t < eT) → ∃ tr, make_trace fi p ho cn det = .ok tr)) ∧
        ts = ps.filterMap (fun p =>
          match blockTime fi p, make_trace fi p ho cn det with
          | .ok t, .ok tr => if sT ≤ t ∧ t < eT then some tr else none
          | _, _ => none) := by
  induction n with
  | zero =>
    intro pos ts h
    refine ⟨[], rfl, by simp, ?_⟩
    simp only [rg16_walk] at h
    exact (Except.ok.inj h).symm
  | succ n ih =>
    intro pos ts h
    simp only [rg16_walk] at h
    rw [bind_ok_iff] at h
    obtain ⟨len, hlen, h⟩ := h
    rw [bind_ok_iff] at h
    obtain ⟨st8, hst8, h⟩ := h
    have hbt : blockTime fi pos = .ok ((st8 : ℚ) / 1000000) := by
      rw [blockTime, hst8]
      rfl
    by_cases hc : sT ≤ (st8 : ℚ) / 1000000 ∧ (st8 : ℚ) / 1000000 < eT
    · rw [if_pos hc] at h
      rw [bind_ok_iff] at h
      obtain ⟨tr, htr, h⟩ := h
      rw [bind_ok_iff] at h
      obtain ⟨rest, hrest, h⟩ := h
      rw [pure_eq_ok] at h
      obtain rfl : tr :: rest = ts := Except.ok.inj h
      obtain ⟨ps', hps', hmem', hts'⟩ := ih (pos + len) rest hrest
      refine ⟨pos :: ps', ?_, ?_, ?_⟩
      · simp only [blockPositions, hlen, ok_bind, hps', pure_eq_ok]
      · intro p hp
        rcases List.mem_cons.mp hp with rfl | hp'
        · exact ⟨(st8 : ℚ) / 1000000, hbt, fun _ => ⟨tr, htr⟩⟩
        · exact hmem' p hp'
      · simp only [List.filterMap_cons, hbt, htr, if_pos hc]
        exact congrArg (tr :: ·) hts'
    · rw [if_neg hc] at h
      obtain ⟨ps', hps', hmem', hts'⟩ := ih (pos + len) ts h
      refine ⟨pos :: ps', ?_, ?_, ?_⟩
      · simp only [blockPositions, hlen, ok_bind, hps', pure_eq_ok]
      · intro p hp
        rcases List.mem_cons.mp hp with rfl | hp'
        · exact ⟨(st8 : ℚ) / 1000000, hbt, fun hcond => absurd hcond hc⟩
        · exact hmem' p hp'
      · cases hmk : make_trace fi pos ho cn det with
        | ok tr => simp only [List.filterMap_cons, hbt, hmk, if_neg hc]; exact hts'
        | error e => simp only [List.filterMap_cons, hbt, hmk]; exact hts'

/-- Inversion of a successful `band_map` lookup. -/
theorem band_map_ok {r : ℕ} {b : String} (h : band_map r = .ok b) :
    ((r = 2000 ∨ r = 1000) ∧ b = "G") ∨ ((r = 500 ∨ r = 250) ∧ b = "D") := by
  unfold band_map at h
  split at h <;> simp_all

/-- Inversion of a successful `make_stats`: every field of the produced stats
in terms of the reads the source performs. -/
theorem make_stats_ok {fi : ByteSource} {pos : ℕ} {so det : Bool} {st : RgStats}
    (h : make_stats fi pos so det = .ok st) :
    ∃ bsi band compv comp npts sv net sta loc rg,
      readBinary fi 22 1 = .ok bsi ∧ ¬ bsi = 0 ∧
      band_map (16000 / bsi) = .ok band ∧
      readBinary fi (pos + 40) 1 = .ok compv ∧
      (so = true → standard_component_map (Nat.repr compv) = .ok comp) ∧
      (so = false → comp = Nat.repr compv) ∧
      readBinary fi (pos + 27) 3 = .ok npts ∧
      readBinary fi (pos + 20 + 2 * 32) 8 = .ok sv ∧
      readBinary fi (pos + 20) 3 = .ok net ∧
      readBinary fi (pos + 23) 3 = .ok sta ∧
      readBinary fi (pos + 26) 1 = .ok loc ∧
      make_stats_details fi pos det = .ok rg ∧
      st = { starttime := (sv : ℚ) / 1000000,
             endtime := (sv : ℚ) / 1000000 + ((npts : ℚ) - 1) * (1 / ((16000 / bsi : ℕ) : ℚ)),
             sampling_rate := 16000 / bsi, npts := npts,
             network := Nat.repr net, station := Nat.repr sta, location := Nat.repr loc,
             channel := band ++ "P" ++ comp, rg16 := rg } := by
  simp only [make_stats] at h
  rw [bind_ok_iff] at h
  obtain ⟨bsi, hbsi, h⟩ := h
  by_cases hz : bsi = 0
  · rw [if_pos hz] at h
    exact absurd h (by simp)
  · rw [if_neg hz] at h
    rw [bind_ok_iff] at h
    obtain ⟨band, hband, h⟩ := h
    rw [bind_ok_iff] at h
    obtain ⟨compv, hcompv, h⟩ := h
    cases so with
    | true =>
      rw [if_pos rfl] at h
      simp only [bind_ok_iff, pure_eq_ok, Except.ok.injEq] at h
      obtain ⟨comp, hcomp, npts, hnpts, sv, hsv, net, hnet, sta, hsta, loc, hloc,
        rg, hrg, hst⟩ := h
      exact ⟨bsi, band, compv, comp, npts, sv, net, sta, loc, rg, hbsi, hz, hband, hcompv,
        fun _ => hcomp, fun hff => Bool.noConfusion hff, hnpts, hsv, hnet, hsta, hloc, hrg, hst.symm⟩
    | false =>
      rw [if_neg (by simp)] at h
      simp only [ok_bind, bind_ok_iff, pure_eq_ok, Except.ok.injEq] at h
      obtain ⟨npts, hnpts, sv, hsv, net, hnet, sta, hsta, loc, hloc, rg, hrg, hst⟩ := h
      exact ⟨bsi, band, compv, Nat.repr compv, npts, sv, net, sta, loc, rg, hbsi, hz, hband,
        hcompv, fun htt => Bool.noConfusion htt, fun _ => rfl, hnpts, hsv, hnet, hsta, hloc, hrg,
        hst.symm⟩

/-- Inversion of a successful `make_trace`. -/
theorem make_trace_ok {fi : ByteSource} {pos : ℕ} {ho cn det : Bool} {tr : RgTrace}
    (h : make_trace fi pos ho cn det = .ok tr) :
    ∃ st, make_stats fi pos cn det = .ok st ∧ tr.stats = st ∧
      (ho = true → tr.data = [] ∧ tr.dtype = "float64") ∧
      (ho = false → ∃ ne ns data0,
        readBinary fi (pos + 9) 1 = .ok ne ∧
        readBinary fi (pos + 27) 3 = .ok ns ∧
        readIEEE fi (pos + 20 + ne * 32) (4 * ns) = .ok data0 ∧
        tr.dtype = ">f4" ∧
        tr.data = (if lastChar st.channel = some 'Z' then data0.map negF32 else data0)) := by
  simp only [make_trace] at h
  rw [bind_ok_iff] at h
  obtain ⟨st, hst, h⟩ := h
  cases ho with
  | true =>
    rw [if_pos rfl] at h
    rw [pure_eq_ok] at h
    obtain rfl := Except.ok.inj h
    exact ⟨st, hst, rfl, fun _ => ⟨rfl, rfl⟩, fun hfalse => Bool.noConfusion hfalse⟩
  | false =>
    rw [if_neg (by simp)] at h
    simp only [bind_ok_iff, pure_eq_ok, Except.ok.injEq] at h
    obtain ⟨ne, hne, ns, hns, data0, hdata0, htr⟩ := h
    subst htr
    exact ⟨st, hst, rfl, fun htrue => Bool.noConfusion htrue,
      fun _ => ⟨ne, ns, data0, hne, hns, hdata0, rfl, rfl⟩⟩

/-- Every iteration of the `_read_trace_headers` loop that reaches block
number 11 fails: `dict_func` has keys `'1'..'10'` only. -/
theorem read_trace_headers_go_err (fi : ByteSource) (pos : ℕ) :
    ∀ (n i : ℕ), i ≤ 11 → 12 ≤ i + n →
      ∀ v, read_trace_headers_go fi pos i n ≠ .ok v := by
  intro n
  induction n with
  | zero => intro i h1 h2 v _; omega
  | succ n ih =>
    intro i h1 h2 v h
    simp only [read_trace_headers_go] at h
    rw [bind_ok_iff] at h
    obtain ⟨d, hd, h⟩ := h
    rw [bind_ok_iff] at h
    obtain ⟨rest, hrest, _⟩ := h
    by_cases hi : i = 11
    · subst hi
      have : trace_header_block fi pos 11 = .error (.keyError (Nat.repr 11)) := rfl
      rw [this] at hd
      exact Except.noConfusion hd
    · exact ih (i + 1) (by omega) (by omega) rest hrest

/-- With `details = true`, a trace block announcing more than 10 extension
blocks makes `_make_stats` fail: the loop over `dict_func` reaches the
undefined block number 11. -/
theorem make_stats_details_err {fi : ByteSource} {pos nbr : ℕ}
    (hn : readBinary fi (pos + 9) 1 = .ok nbr) (h10 : 10 < nbr) :
    ∀ v, make_stats_details fi pos true ≠ .ok v := by
  intro v h
  simp only [make_stats_details, if_pos] at h
  rw [bind_ok_iff] at h
  obtain ⟨ih0, hih0, h⟩ := h
  rw [bind_ok_iff] at h
  obtain ⟨th, hth, h⟩ := h
  rw [bind_ok_iff] at h
  obtain ⟨nbr2, hnbr2, h⟩ := h
  rw [hn] at hnbr2
  obtain rfl : nbr = nbr2 := Except.ok.inj hnbr2
  rw [if_pos (by omega : nbr > 0)] at h
  rw [bind_ok_iff] at h
  obtain ⟨ths, hths, _⟩ := h
  exact read_trace_headers_go_err fi pos nbr 1 (by omega) (by omega) ths hths

theorem sort_insert_perm (x : RgTrace) : ∀ l : List RgTrace, (sort_insert x l).Perm (x :: l)
  | [] => List.Perm.refl _
  | y :: l => by
    rw [sort_insert]
    by_cases h : rec_array_le x y = true
    · rw [if_pos h]
    · rw [if_neg h]
      exact ((sort_insert_perm x l).cons y).trans (List.Perm.swap x y l)

theorem sort_by_key_perm : ∀ l : List RgTrace, (sort_by_key l).Perm l
  | [] => List.Perm.refl _
  | x :: l => by
    rw [sort_by_key]
    exact (sort_insert_perm x (sort_by_key l)).trans ((sort_by_key_perm l).cons x)

theorem cumsum_go_length (acc : ℕ) : ∀ l : List Bool, (cumsum_go acc l).length = l.length
  | [] => rfl
  | b :: bs => by rw [cumsum_go]; simpa using cumsum_go_length _ bs

theorem get_trace_groups_length (ar : List (String × ℚ × ℚ)) (diff : ℚ) :
    (get_trace_groups ar diff).length = ar.length := by
  cases ar with
  | nil => rfl
  | cons a tl =>
    rw [get_trace_groups, cumsum, cumsum_go_length, List.length_zipWith]
    simp [List.length_zip, Nat.min_def]

theorem foldr_append_length (ls : List (List ℕ)) :
    (ls.foldr (· ++ ·) []).length = (ls.map List.length).sum := by
  induction ls with
  | nil => rfl
  | cons l ls ih => simp [ih]

theorem sum_map_add (f g : ℕ → ℕ) (ks : List ℕ) :
    (ks.map (fun k => f k + g k)).sum = (ks.map f).sum + (ks.map g).sum := by
  induction ks with
  | nil => rfl
  | cons k ks ih => simp [ih]; omega

theorem sum_map_ite_eq (c : ℕ) : ∀ (ks : List ℕ) (x : ℕ), ks.Nodup → x ∈ ks →
    (ks.map (fun k => if x = k then c else 0)).sum = c := by
  intro ks
  induction ks with
  | nil => intro x _ hx; cases hx
  | cons k ks ih =>
    intro x hnd hx
    rcases List.mem_cons.mp hx with rfl | hx'
    · have : ∀ j ∈ ks, (if x = j then c else 0) = 0 := by
        intro j hj
        rw [if_neg]
        intro hxj
        exact (List.nodup_cons.mp hnd).1 (hxj ▸ hj)
      simp only [List.map_cons, List.sum_cons, if_pos rfl]
      rw [List.map_congr_left this]
      simp
    · have hxk : ¬ x = k := by
        intro hxk
        exact (List.nodup_cons.mp hnd).1 (hxk ▸ hx')
      simp only [List.map_cons, List.sum_cons, if_neg hxk, Nat.zero_add]
      exact ih x (List.nodup_cons.mp hnd).2 hx'

/-- Summing a weight fiberwise over the distinct group numbers recovers the
total: every row is selected by exactly one group number. -/
theorem fiber_sum {α : Type} (w : α → ℕ) :
    ∀ (l : List (ℕ × α)) (ks : List ℕ), ks.Nodup → (∀ p ∈ l, p.1 ∈ ks) →
      (ks.map (fun k => ((l.filter (fun p => p.1 == k)).map (fun p => w p.2)).sum)).sum
        = (l.map (fun p => w p.2)).sum := by
  intro l
  induction l with
  | nil => intro ks _ _; simp
  | cons p l ih =>
    intro ks hnd hcov
    have hstep : ∀ k, ((((p :: l).filter (fun q => q.1 == k)).map (fun q => w q.2)).sum)
        = (if p.1 = k then w p.2 else 0)
          + ((l.filter (fun q => q.1 == k)).map (fun q => w q.2)).sum := by
      intro k
      rw [List.filter_cons]
      by_cases hk : p.1 = k
      · simp [hk]
      · simp [hk]
    rw [List.map_congr_left (fun k _ => hstep k), sum_map_add]
    rw [sum_map_ite_eq (w p.2) ks p.1 hnd (hcov p (List.mem_cons_self p l))]
    rw [ih ks hnd (fun q hq => hcov q (List.mem_cons_of_mem p hq))]
    simp

theorem exists_mem_zip_left {α β : Type} :
    ∀ {l₁ : List α} {l₂ : List β} {g : α}, g ∈ l₁ → l₁.length ≤ l₂.length →
      ∃ b, (g, b) ∈ l₁.zip l₂ := by
  intro l₁
  induction l₁ with
  | nil => intro l₂ g hg; cases hg
  | cons a l₁ ih =>
    intro l₂ g hg hlen
    cases l₂ with
    | nil => simp at hlen
    | cons b l₂ =>
      rcases List.mem_cons.mp hg with rfl | hg'
      · exact ⟨b, List.mem_cons_self _ _⟩
      · obtain ⟨b', hb'⟩ := ih hg' (by simpa using hlen)
        exact ⟨b', List.mem_cons_of_mem _ hb'⟩

theorem npts_update (st : RgStats) (n : ℕ) : ({ st with npts := n } : RgStats).npts = n := rfl

/-- The members selected for any group number occurring in the group array
cover every row: the weighted sum over the distinct group numbers of
`_quick_merge`'s selection equals the total over all rows. -/
theorem quick_merge_sum_core (zipped : List (ℕ × RgTrace)) (ks : List ℕ)
    (hnd : ks.Nodup) (hcov : ∀ p ∈ zipped, p.1 ∈ ks) :
    (ks.map (fun g =>
      (((((zipped.filter (fun p => p.1 == g)).map (fun p => p.2)).map
        (fun tr => tr.data)).foldr (· ++ ·) []).length))).sum
      = (zipped.map (fun p => p.2.data.length)).sum := by
  have hpt : ∀ g : ℕ,
      (((((zipped.filter (fun p => p.1 == g)).map (fun p => p.2)).map
        (fun tr => tr.data)).foldr (· ++ ·) []).length)
        = (((zipped.filter (fun p => p.1 == g)).map
            (fun p => p.2.data.length))).sum := by
    intro g
    rw [foldr_append_length, List.map_map, List.map_map]
    rfl
  rw [List.map_congr_left (fun g _ => hpt g)]
  exact fiber_sum (fun tr => tr.data.length) zipped ks hnd hcov

/-- Decomposition of a successful `_internal_read_rg16` call into its header
reads, record walk and optional merge. -/
theorem internal_read_decomp {fi : ByteSource} {ho : Bool} {sT eT : ℚ}
    {mg cn det : Bool} {ts : List RgTrace}
    (h : internal_read_rg16 fi ho sT eT mg cn det = .ok ts) :
    ∃ a b c n ts0,
      cmp_nbr_headers fi = .ok (a, b, c) ∧
      cmp_nbr_records fi = .ok n ∧
      rg16_walk fi ho cn det sT eT (32 * (2 + a + b + c)) n = .ok ts0 ∧
      (if mg then quick_merge ts0 else .ok ts0) = .ok ts := by
  simp only [internal_read_rg16] at h
  rw [bind_ok_iff] at h
  obtain ⟨⟨a, b, c⟩, h1, h⟩ := h
  rw [bind_ok_iff] at h
  obtain ⟨n, h2, h⟩ := h
  rw [bind_ok_iff] at h
  obtain ⟨ts0, h3, h4⟩ := h
  exact ⟨a, b, c, n, ts0, h1, h2, h3, by simpa using h4⟩

/-- Construction of a successful `make_stats` from its component reads. -/
theorem make_stats_build {fi : ByteSource} {pos : ℕ} {det : Bool} (so : Bool)
    {bsi : ℕ} {band : String} {compv : ℕ} {comp : String} {npts sv net sta loc : ℕ}
    {rg : Option Rg16Details}
    (hbsi : readBinary fi 22 1 = .ok bsi) (hz : ¬ bsi = 0)
    (hband : band_map (16000 / bsi) = .ok band)
    (hcompv : readBinary fi (pos + 40) 1 = .ok compv)
    (hcompT : so = true → standard_component_map (Nat.repr compv) = .ok comp)
    (hcompF : so = false → comp = Nat.repr compv)
    (hnpts : readBinary fi (pos + 27) 3 = .ok npts)
    (hsv : readBinary fi (pos + 20 + 2 * 32) 8 = .ok sv)
    (hnet : readBinary fi (pos + 20) 3 = .ok net)
    (hsta : readBinary fi (pos + 23) 3 = .ok sta)
    (hloc : readBinary fi (pos + 26) 1 = .ok loc)
    (hrg : make_stats_details fi pos det = .ok rg) :
    make_stats fi pos so det = .ok
      { starttime := (sv : ℚ) / 1000000,
        endtime := (sv : ℚ) / 1000000 + ((npts : ℚ) - 1) * (1 / ((16000 / bsi : ℕ) : ℚ)),
        sampling_rate := 16000 / bsi, npts := npts,
        network := Nat.repr net, station := Nat.repr sta, location := Nat.repr loc,
        channel := band ++ "P" ++ comp, rg16 := rg } := by
  simp only [make_stats]
  rw [hbsi, ok_bind, if_neg hz, hband, ok_bind, hcompv, ok_bind]
  cases so with
  | true =>
    rw [if_pos rfl, hcompT rfl, ok_bind, hnpts, ok_bind, hsv, ok_bind, hnet, ok_bind,
      hsta, ok_bind, hloc, ok_bind, hrg, ok_bind]
    rfl
  | false =>
    obtain rfl := hcompF rfl
    rw [if_neg (by decide : ¬ false = true), pure_eq_ok, ok_bind, hnpts, ok_bind, hsv,
      ok_bind, hnet, ok_bind, hsta, ok_bind, hloc, ok_bind, hrg, ok_bind]
    rfl

/-- Construction of a successful `make_trace` (with samples) from its parts. -/
theorem make_trace_build {fi : ByteSource} {pos : ℕ} {cn det : Bool} {st : RgStats}
    {ne ns : ℕ} {data0 : List ℕ}
    (hst : make_stats fi pos cn det = .ok st)
    (hne : readBinary fi (pos + 9) 1 = .ok ne)
    (hns : readBinary fi (pos + 27) 3 = .ok ns)
    (hIE : readIEEE fi (pos + 20 + ne * 32) (4 * ns) = .ok data0) :
    make_trace fi pos false cn det = .ok
      { data := if lastChar st.channel = some 'Z' then data0.map negF32 else data0,
        dtype := ">f4", stats := st } := by
  simp only [make_trace]
  rw [hst, ok_bind, if_neg (by decide : ¬ false = true), hne, ok_bind, hns, ok_bind,
    hIE, ok_bind]
  rfl

/-- The walk returns the empty list when every visited block's start time is
outside the `[starttime, endtime)` window (and `_make_trace` is never
called). -/
theorem rg16_walk_excluded (fi : ByteSource) (ho cn det : Bool) (sT eT : ℚ) :
    ∀ (n pos : ℕ) (ps : List ℕ), blockPositions fi pos n = .ok ps →
      (∀ p ∈ ps, ∃ t, blockTime fi p = .ok t ∧ ¬ (sT ≤ t ∧ t < eT)) →
      rg16_walk fi ho cn det sT eT pos n = .ok [] := by
  intro n
  induction n with
  | zero => intro pos ps _ _; rfl
  | succ n ih =>
    intro pos ps h1 h2
    simp only [blockPositions] at h1
    rw [bind_ok_iff] at h1
    obtain ⟨len, hlen, h1⟩ := h1
    rw [bind_ok_iff] at h1
    obtain ⟨rest, hrest, h1⟩ := h1
    rw [pure_eq_ok] at h1
    obtain rfl : pos :: rest = ps := Except.ok.inj h1
    obtain ⟨t, hbt, hnot⟩ := h2 pos (List.mem_cons_self _ _)
    rw [blockTime, map_ok_iff] at hbt
    obtain ⟨v, hv, rfl⟩ := hbt
    simp only [rg16_walk]
    rw [hlen, ok_bind, hv, ok_bind, if_neg hnot]
    exact ih (pos + len) rest hrest (fun p hp => h2 p (List.mem_cons_of_mem _ hp))

/-- C9: for every non-empty trace list satisfying `_quick_merge`'s
preconditions (a single sampling rate, a single dtype, a nonzero rate so that
`1./sampling_rate` is defined, and stats `npts` equal to the sample count as
for every trace produced by `_read_rg16`), the merge succeeds and the sum of
`npts` over the returned traces equals the sum of `npts` over the input
traces: every input trace's samples land in exactly one output trace's
concatenation. -/
theorem quick_merge_preserves_total_npts (traces : List RgTrace)
    (hne : traces ≠ [])
    (h1 : (traces.map (fun tr => tr.stats.sampling_rate)).dedup.length = 1)
    (h2 : (traces.map (fun tr => tr.dtype)).dedup.length = 1)
    (hz : ∀ tr ∈ traces, tr.stats.sampling_rate ≠ 0)
    (hnp : ∀ tr ∈ traces, tr.stats.npts = tr.data.length) :
    ∃ out, quick_merge traces = .ok out ∧
      (out.map (fun tr => tr.stats.npts)).sum
        = (traces.map (fun tr => tr.stats.npts)).sum := by
  obtain ⟨t0, rest, rfl⟩ : ∃ t0 rest, traces = t0 :: rest := by
    cases traces with
    | nil => exact absurd rfl hne
    | cons a l => exact ⟨a, l, rfl⟩
  have hz0 : ¬ t0.stats.sampling_rate = 0 := hz t0 (List.mem_cons_self _ _)
  simp only [quick_merge]
  rw [if_neg (not_not_intro h1), if_neg (not_not_intro h2), if_neg hz0]
  refine ⟨_, rfl, ?_⟩
  rw [List.map_map]
  have hproj : ((fun tr : RgTrace => tr.stats.npts) ∘ (fun gnum =>
      let members := (((get_trace_groups
            ((trace_list_to_rec_array (t0 :: rest)).map
              (fun tr => (tr.id, tr.stats.starttime, tr.stats.endtime)))
            (1 / (t0.stats.sampling_rate : ℚ) + 1 / 1000000)).zip
          (trace_list_to_rec_array (t0 :: rest))).filter
            (fun p => p.1 == gnum)).map (fun p => p.2)
      let new_data := (members.map (fun tr => tr.data)).foldr (· ++ ·) []
      let new_stats := (members.map (fun tr => tr.stats)).headD default
      ({ data := new_data,
         dtype := (members.map (fun tr => tr.dtype)).headD "",
         stats := { new_stats with npts := new_data.length } } : RgTrace)))
      = (fun gnum =>
        (((((get_trace_groups
            ((trace_list_to_rec_array (t0 :: rest)).map
              (fun tr => (tr.id, tr.stats.starttime, tr.stats.endtime)))
            (1 / (t0.stats.sampling_rate : ℚ) + 1 / 1000000)).zip
          (trace_list_to_rec_array (t0 :: rest))).filter
            (fun p => p.1 == gnum)).map (fun p => p.2)).map
              (fun tr => tr.data)).foldr (· ++ ·) [] |>.length) := by
    funext gnum
    rfl
  rw [hproj]
  have hlen : (get_trace_groups
      ((trace_list_to_rec_array (t0 :: rest)).map
        (fun tr => (tr.id, tr.stats.starttime, tr.stats.endtime)))
      (1 / (t0.stats.sampling_rate : ℚ) + 1 / 1000000)).length
      = (trace_list_to_rec_array (t0 :: rest)).length := by
    rw [get_trace_groups_length, List.length_map]
  rw [quick_merge_sum_core _ _ (List.nodup_dedup _) ?cov]
  case cov =>
    intro p hp
    obtain ⟨x, y⟩ := p
    exact List.mem_dedup.mpr (List.of_mem_zip hp).1
  have hsnd : ((get_trace_groups
      ((trace_list_to_rec_array (t0 :: rest)).map
        (fun tr => (tr.id, tr.stats.starttime, tr.stats.endtime)))
      (1 / (t0.stats.sampling_rate : ℚ) + 1 / 1000000)).zip
        (trace_list_to_rec_array (t0 :: rest))).map Prod.snd
      = trace_list_to_rec_array (t0 :: rest) :=
    List.map_snd_zip _ _ (le_of_eq hlen.symm)
  have hcomp2 : ((get_trace_groups
      ((trace_list_to_rec_array (t0 :: rest)).map
        (fun tr => (tr.id, tr.stats.starttime, tr.stats.endtime)))
      (1 / (t0.stats.sampling_rate : ℚ) + 1 / 1000000)).zip
        (trace_list_to_rec_array (t0 :: rest))).map (fun p => p.2.data.length)
      = (((get_trace_groups
      ((trace_list_to_rec_array (t0 :: rest)).map
        (fun tr => (tr.id, tr.stats.starttime, tr.stats.endtime)))
      (1 / (t0.stats.sampling_rate : ℚ) + 1 / 1000000)).zip
        (trace_list_to_rec_array (t0 :: rest))).map Prod.snd).map
          (fun tr => tr.data.length) := by
    rw [List.map_map]
    rfl
  rw [hcomp2, hsnd]
  have hperm : ((trace_list_to_rec_array (t0 :: rest)).map
      (fun tr => tr.data.length)).Perm ((t0 :: rest).map (fun tr => tr.data.length)) :=
    (sort_by_key_perm (t0 :: rest)).map _
  rw [hperm.sum_eq, List.map_congr_left (fun tr htr => (hnp tr htr).symm)]

/-- `_cmp_nbr_records` decodes the initial headers, and general header 1
reads the base scan interval at byte 22; so a successful record count means
byte 22 was readable. -/
theorem cmp_nbr_records_reads_bsi {fi : ByteSource} {n : ℕ}
    (h : cmp_nbr_records fi = .ok n) : ∃ bsi, readBinary fi 22 1 = .ok bsi := by
  simp only [cmp_nbr_records, bind_ok_iff] at h
  obtain ⟨ih, hih, _⟩ := h
  simp only [read_initial_headers, bind_ok_iff] at hih
  obtain ⟨gh1, hgh1, _⟩ := hih
  simp only [read_general_header_1, bind_ok_iff] at hgh1
  obtain ⟨f1, _, f2, _, f3, _, f4, _, f5, _, f6, _, f7, _, f8, _, f9, _, bsi, hbsi, _⟩ := hgh1
  exact ⟨bsi, hbsi⟩

/-- Every trace returned by the record walk is the result of `_make_trace`
at some visited block position. -/
theorem rg16_walk_mem_make_trace {fi : ByteSource} {ho cn det : Bool} {sT eT : ℚ}
    {pos n : ℕ} {ts : List RgTrace} (h : rg16_walk fi ho cn det sT eT pos n = .ok ts) :
    ∀ tr ∈ ts, ∃ p, make_trace fi p ho cn det = .ok tr := by
  obtain ⟨ps, _, _, hts⟩ := rg16_walk_split fi ho cn det sT eT n pos ts h
  intro tr htr
  rw [hts] at htr
  obtain ⟨p, _, hfp⟩ := List.mem_filterMap.mp htr
  refine ⟨p, ?_⟩
  cases hbt : blockTime fi p with
  | error e => rw [hbt] at hfp; exact absurd hfp (by simp)
  | ok t =>
    cases hmk : make_trace fi p ho cn det with
    | error e => rw [hbt, hmk] at hfp; exact absurd hfp (by simp)
    | ok tr2 =>
      rw [hbt, hmk] at hfp
      have hfp2 : (if sT ≤ t ∧ t < eT then some tr2 else none) = some tr := hfp
      by_cases hc : sT ≤ t ∧ t < eT
      · rw [if_pos hc] at hfp2
        rw [Option.some.inj hfp2]
      · rw [if_neg hc] at hfp2
        exact absurd hfp2 (by simp)

/-- The sampling rate of every `_make_trace` result is derived solely from
the byte at absolute offset 22, and is one of 2000, 1000, 500 or 250 Hz
(otherwise the `band_map` lookup fails the call). -/
theorem make_trace_rate {fi : ByteSource} {p : ℕ} {ho cn det : Bool} {tr : RgTrace}
    (h : make_trace fi p ho cn det = .ok tr) :
    ∃ bsi, readBinary fi 22 1 = .ok bsi ∧ tr.stats.sampling_rate = 16000 / bsi ∧
      (16000 / bsi = 2000 ∨ 16000 / bsi = 1000 ∨ 16000 / bsi = 500 ∨ 16000 / bsi = 250) := by
  obtain ⟨st, hst, hstats, _, _⟩ := make_trace_ok h
  obtain ⟨bsi, band, compv, comp, npts, sv, net, sta, loc, rg, hbsi, _, hband,
    _, _, _, _, _, _, _, _, _, hsteq⟩ := make_stats_ok hst
  refine ⟨bsi, hbsi, ?_, ?_⟩
  · rw [hstats, hsteq]
  · rcases band_map_ok hband with ⟨hr | hr, _⟩ | ⟨hr | hr, _⟩
    · exact Or.inl hr
    · exact Or.inr (Or.inl hr)
    · exact Or.inr (Or.inr (Or.inl hr))
    · exact Or.inr (Or.inr (Or.inr hr))

/-- Every trace returned by `_quick_merge` carries the sampling rate of some
input trace (its stats are a copy of the first group member's stats), and a
successful merge implies a non-empty input. -/
theorem quick_merge_src {traces out : List RgTrace} (h : quick_merge traces = .ok out) :
    traces ≠ [] ∧
    ∀ tr ∈ out, ∃ src ∈ traces, tr.stats.sampling_rate = src.stats.sampling_rate := by
  obtain ⟨t0, rest, rfl⟩ : ∃ t0 r, traces = t0 :: r := by
    cases traces with
    | nil =>
      exfalso
      rw [show quick_merge [] = .error .assertionError from rfl] at h
      exact Except.noConfusion h
    | cons a l => exact ⟨a, l, rfl⟩
  refine ⟨by simp, ?_⟩
  simp only [quick_merge] at h
  by_cases hA : ((t0 :: rest).map (fun tr => tr.stats.sampling_rate)).dedup.length = 1
  case neg => rw [if_pos hA] at h; exact absurd h (by simp)
  rw [if_neg (not_not_intro hA)] at h
  by_cases hB : ((t0 :: rest).map (fun tr => tr.dtype)).dedup.length = 1
  case neg => rw [if_pos hB] at h; exact absurd h (by simp)
  rw [if_neg (not_not_intro hB)] at h
  by_cases hZ : t0.stats.sampling_rate = 0
  case pos => rw [if_pos hZ] at h; exact absurd h (by simp)
  rw [if_neg hZ] at h
  intro tr htr
  rw [← Except.ok.inj h] at htr
  obtain ⟨g, hg, rfl⟩ := List.mem_map.mp htr
  have hglen : (get_trace_groups
      ((trace_list_to_rec_array (t0 :: rest)).map
        (fun tr => (tr.id, tr.stats.starttime, tr.stats.endtime)))
      (1 / (t0.stats.sampling_rate : ℚ) + 1 / 1000000)).length
      = (trace_list_to_rec_array (t0 :: rest)).length := by
    rw [get_trace_groups_length, List.length_map]
  obtain ⟨trz, hzmem⟩ := exists_mem_zip_left (List.mem_dedup.mp hg) (le_of_eq hglen)
  have hfil : (g, trz) ∈ ((get_trace_groups
      ((trace_list_to_rec_array (t0 :: rest)).map
        (fun tr => (tr.id, tr.stats.starttime, tr.stats.endtime)))
      (1 / (t0.stats.sampling_rate : ℚ) + 1 / 1000000)).zip
        (trace_list_to_rec_array (t0 :: rest))).filter (fun p => p.1 == g) :=
    List.mem_filter.mpr ⟨hzmem, by simp⟩
  have hmm : trz ∈ (((get_trace_groups
      ((trace_list_to_rec_array (t0 :: rest)).map
        (fun tr => (tr.id, tr.stats.starttime, tr.stats.endtime)))
      (1 / (t0.stats.sampling_rate : ℚ) + 1 / 1000000)).zip
        (trace_list_to_rec_array (t0 :: rest))).filter (fun p => p.1 == g)).map
          (fun p => p.2) :=
    List.mem_map.mpr ⟨(g, trz), hfil, rfl⟩
  obtain ⟨m0, ms, hm⟩ : ∃ m0 ms, (((get_trace_groups
      ((trace_list_to_rec_array (t0 :: rest)).map
        (fun tr => (tr.id, tr.stats.starttime, tr.stats.endtime)))
      (1 / (t0.stats.sampling_rate : ℚ) + 1 / 1000000)).zip
        (trace_list_to_rec_array (t0 :: rest))).filter (fun p => p.1 == g)).map
          (fun p => p.2) = m0 :: ms := by
    cases hcase : (((get_trace_groups
        ((trace_list_to_rec_array (t0 :: rest)).map
          (fun tr => (tr.id, tr.stats.starttime, tr.stats.endtime)))
        (1 / (t0.stats.sampling_rate : ℚ) + 1 / 1000000)).zip
          (trace_list_to_rec_array (t0 :: rest))).filter (fun p => p.1 == g)).map
            (fun p => p.2) with
    | nil => rw [hcase] at hmm; cases hmm
    | cons x xs => exact ⟨x, xs, rfl⟩
  have hm0 : m0 ∈ t0 :: rest := by
    have hmem0 : m0 ∈ (((get_trace_groups
        ((trace_list_to_rec_array (t0 :: rest)).map
          (fun tr => (tr.id, tr.stats.starttime, tr.stats.endtime)))
        (1 / (t0.stats.sampling_rate : ℚ) + 1 / 1000000)).zip
          (trace_list_to_rec_array (t0 :: rest))).filter (fun p => p.1 == g)).map
            (fun p => p.2) := by
      rw [hm]; exact List.mem_cons_self _ _
    obtain ⟨q, hqfil, hq2⟩ := List.mem_map.mp hmem0
    have hqz := (List.mem_filter.mp hqfil).1
    have := (List.of_mem_zip hqz).2
    rw [hq2] at this
    exact (sort_by_key_perm (t0 :: rest)).mem_iff.mp this
  have hgoal : ((((((get_trace_groups
      ((trace_list_to_rec_array (t0 :: rest)).map
        (fun (tr2 : RgTrace) => (tr2.id, tr2.stats.starttime, tr2.stats.endtime)))
      (1 / (t0.stats.sampling_rate : ℚ) + 1 / 1000000)).zip
        (trace_list_to_rec_array (t0 :: rest))).filter
          (fun (p : ℕ × RgTrace) => p.1 == g)).map
            (fun (p : ℕ × RgTrace) => p.2)).map
              (fun (tr2 : RgTrace) => tr2.stats)).headD default).sampling_rate
    = m0.stats.sampling_rate := by
    rw [hm]
    rfl
  exact ⟨m0, hm0, hgoal⟩

/-- The `dedup` of a nonempty list whose elements are all equal to `c` is
`[c]` (so `len(set(...)) == 1` holds for it). -/
theorem dedup_all_eq {α : Type} [DecidableEq α] :
    ∀ {l : List α} {c : α}, l ≠ [] → (∀ x ∈ l, x = c) → l.dedup = [c] := by
  intro l
  induction l with
  | nil => intro c h _; exact absurd rfl h
  | cons a tl ih =>
    intro c _ hall
    have ha : a = c := hall a (List.mem_cons_self a tl)
    subst ha
    cases tl with
    | nil =>
      rw [List.dedup_cons_of_not_mem (by simp), List.dedup_nil]
    | cons b tl2 =>
      have hb : b = a := hall b (by simp)
      have hmem : a ∈ b :: tl2 := by rw [hb]; exact List.mem_cons_self _ _
      rw [List.dedup_cons_of_mem hmem]
      exact ih (by simp) (fun x hx => hall x (List.mem_cons_of_mem a hx))

attribute [local semireducible] Rat.add Rat.sub Rat.mul Rat.inv Rat.ofScientific

set_option maxRecDepth 100000

set_option exponentiation.threshold 20000

/-- C1 (counterexample): the claimed equivalence `is_rg16(source) = true ⟺
read_rg16(source) does not raise NotRg16` fails on the concrete RG16-like
source `F261` whose version field is 261: `is_rg16` returns `false`, yet
`read_rg16` (default options, window `[0, 1000)` covering the data) succeeds
and returns a one-trace stream — it raises nothing, in particular no
`NotRg16` (no code path of `_internal_read_rg16` checks the version,
manufacturer or sample-format fields). -/
theorem claim_C1_counterexample :
    internal_is_rg16 F261 = false ∧
    internal_read_rg16 F261 false 0 1000 false false false = .ok [TR262] :=
  ⟨by decide, by decide⟩

/-- C1 (amended): `is_rg16(source)` is exactly the three-field identification
test — true iff the BCD sample format at byte 2 reads 8058, the BCD
manufacturer at byte 16 reads 20 and the binary version at bytes 42-43 reads
262, and false when any of the three reads fails; `read_rg16` performs no
such validation and never raises `NotRg16`: the version-261 source `F261`
decodes to exactly the same traces as its version-262 counterpart `F262`,
while only `F262` passes the probe. -/
theorem claim_C1 :
    (∀ fi, internal_is_rg16 fi =
      (match readBCD fi 2 2, readBCD fi 16 1, readBinary fi 42 2 with
       | .ok sample_format, .ok manufacturer_code, .ok version =>
         decide (version = 262 ∧ sample_format = 8058) && decide (manufacturer_code = 20)
       | _, _, _ => false)) ∧
    internal_is_rg16 F262 = true ∧
    internal_is_rg16 F261 = false ∧
    internal_read_rg16 F262 false 0 1000 false false false = .ok [TR262] ∧
    internal_read_rg16 F261 false 0 1000 false false false = .ok [TR262] :=
  ⟨fun _ => rfl, by decide, by decide, by decide, by decide⟩

/-- C3: when the record walk over `n` trace blocks succeeds, the cursor
visits exactly the positions of `blockPositions` — advancing from each block
to the next by the full `_cmp_jump` block length whether or not the trace
was kept — and the returned list is exactly the decoded traces of the blocks
whose start time (the 8-byte big-endian integer at block offset `20 + 64`
divided by `10⁶`) lies in `[starttime, endtime)`, inclusive below and
strictly exclusive above, in file order. -/
theorem claim_C3 (fi : ByteSource) (ho cn det : Bool) (sT eT : ℚ) (n pos : ℕ)
    (ts : List RgTrace) (h : rg16_walk fi ho cn det sT eT pos n = .ok ts) :
    ∃ ps : List ℕ,
      blockPositions fi pos n = .ok ps ∧
      (∀ p ∈ ps, ∃ t, blockTime fi p = .ok t ∧
        ((sT ≤ t ∧ t < eT) → ∃ tr, make_trace fi p ho cn det = .ok tr)) ∧
      ts = ps.filterMap (fun p =>
        match blockTime fi p, make_trace fi p ho cn det with
        | .ok t, .ok tr => if sT ≤ t ∧ t < eT then some tr else none
        | _, _ => none) :=
  rg16_walk_split fi ho cn det sT eT n pos ts h

/-- C3 witness: the walk over the single block of `F262` with window
`[0, 1000)`. -/
theorem claim_C3_witness :
    ∃ ps : List ℕ,
      blockPositions F262 192 1 = .ok ps ∧
      (∀ p ∈ ps, ∃ t, blockTime F262 p = .ok t ∧
        (((0 : ℚ) ≤ t ∧ t < 1000) → ∃ tr, make_trace F262 p false false false = .ok tr)) ∧
      [TR262] = ps.filterMap (fun p =>
        match blockTime F262 p, make_trace F262 p false false false with
        | .ok t, .ok tr => if (0 : ℚ) ≤ t ∧ t < 1000 then some tr else none
        | _, _ => none) :=
  claim_C3 F262 false false false 0 1000 1 192 [TR262] (by decide)

/-- C5 (amended): with `details = true`, if any visited trace block that
passes the time filter announces more than 10 extension blocks, the whole
`read_rg16` call fails — no partial trace list is returned.  (With
`details = false` the count only enters the block length and the call
succeeds; see the counterexample.) -/
theorem claim_C5 (fi : ByteSource) (ho : Bool) (sT eT : ℚ) (mg cn : Bool)
    (a b c n : ℕ) (ps : List ℕ) (p nbr : ℕ) (t : ℚ)
    (h1 : cmp_nbr_headers fi = .ok (a, b, c))
    (h2 : cmp_nbr_records fi = .ok n)
    (h3 : blockPositions fi (32 * (2 + a + b + c)) n = .ok ps)
    (hp : p ∈ ps)
    (hn : readBinary fi (p + 9) 1 = .ok nbr)
    (h10 : 10 < nbr)
    (ht : blockTime fi p = .ok t)
    (hw : sT ≤ t ∧ t < eT) :
    ∃ e, internal_read_rg16 fi ho sT eT mg cn true = .error e := by
  cases hres : internal_read_rg16 fi ho sT eT mg cn true with
  | error e => exact ⟨e, rfl⟩
  | ok ts =>
    exfalso
    obtain ⟨a2, b2, c2, n2, ts0, h1x, h2x, h3x, _⟩ := internal_read_decomp hres
    rw [h1] at h1x
    obtain ⟨rfl, rfl, rfl⟩ : a = a2 ∧ b = b2 ∧ c = c2 := by
      have := Except.ok.inj h1x
      exact ⟨congrArg Prod.fst this, congrArg Prod.fst (congrArg Prod.snd this),
        congrArg Prod.snd (congrArg Prod.snd this)⟩
    rw [h2] at h2x
    obtain rfl : n = n2 := Except.ok.inj h2x
    obtain ⟨ps2, hps2, hmem, _⟩ := rg16_walk_split fi ho cn true sT eT n
      (32 * (2 + a + b + c)) ts0 h3x
    rw [h3] at hps2
    obtain rfl : ps = ps2 := Except.ok.inj hps2
    obtain ⟨t2, ht2, hkeep⟩ := hmem p hp
    rw [ht] at ht2
    obtain rfl : t = t2 := Except.ok.inj ht2
    obtain ⟨tr, htr⟩ := hkeep hw
    obtain ⟨st, hst, _, _, _⟩ := make_trace_ok htr
    obtain ⟨bsi, band, compv, comp, npts, sv, net, sta, loc, rg,
      _, _, _, _, _, _, _, _, _, _, _, hrg, _⟩ := make_stats_ok hst
    exact make_stats_details_err hn h10 rg hrg

/-- C5 (counterexample): `F568`'s trace block announces 11 extension blocks;
with the default `details = false` the decode succeeds and returns the
trace, refuting "for every option combination the call fails"; with
`details = true` the call does fail, with the `KeyError "11"` that models
`UnknownTraceExtensionBlock`. -/
theorem claim_C5_counterexample :
    internal_read_rg16 F568 false 0 1000 false false false = .ok [TR568] ∧
    internal_read_rg16 F568 false 0 1000 false false true = .error (.keyError "11") :=
  ⟨by decide, by decide⟩

/-- C5 witness: the amended claim applied to `F568` with `details = true`. -/
theorem claim_C5_witness :
    ∃ e, internal_read_rg16 F568 false 0 1000 false false true = .error e :=
  claim_C5 F568 false 0 1000 false false 1 3 0 1 [192] 192 11 2
    (by decide) (by decide) (by decide) (by decide) (by decide) (by decide)
    (by decide) (by decide)

/-- C6: the trace-block region starts at byte
`32 * (2 + nbr_channel_set + nbr_extended_headers + nbr_external_headers)`
with the three counts read from byte 28 (1-byte BCD), byte 37 (2-byte
binary) and byte 39 (3-byte binary); every trace block occupies
`20 + 32 * nbr_trace_extension_blocks + 4 * nbr_sample_trace` bytes (fields
at block offsets 9 and 27), and that length is exactly the walker's advance
from one block position to the next. -/
theorem claim_C6 :
    (∀ (fi : ByteSource) (pos L : ℕ), cmp_jump fi pos = .ok L →
      ∃ ne ns, readBinary fi (pos + 9) 1 = .ok ne ∧
        readBinary fi (pos + 27) 3 = .ok ns ∧ L = 20 + 32 * ne + 4 * ns) ∧
    (∀ (fi : ByteSource) (a b c : ℕ), cmp_nbr_headers fi = .ok (a, b, c) →
      readBCD fi 28 1 = .ok a ∧ readBinary fi 37 2 = .ok b ∧ readBinary fi 39 3 = .ok c) ∧
    (∀ (fi : ByteSource) (ho : Bool) (sT eT : ℚ) (mg cn det : Bool) (a b c n : ℕ),
      cmp_nbr_headers fi = .ok (a, b, c) → cmp_nbr_records fi = .ok n →
      internal_read_rg16 fi ho sT eT mg cn det =
        (rg16_walk fi ho cn det sT eT (32 * (2 + a + b + c)) n).bind
          (fun ts => if mg then quick_merge ts else .ok ts)) ∧
    (∀ (fi : ByteSource) (pos n L : ℕ) (ps : List ℕ), cmp_jump fi pos = .ok L →
      blockPositions fi pos (n + 1) = .ok ps →
      ∃ rest, blockPositions fi (pos + L) n = .ok rest ∧ ps = pos :: rest) := by
  refine ⟨?_, ?_, ?_, ?_⟩
  · intro fi pos L h
    simp only [cmp_jump, bind_ok_iff, pure_eq_ok, Except.ok.injEq] at h
    obtain ⟨ne, hne, ns, hns, hL⟩ := h
    exact ⟨ne, ns, hne, hns, by omega⟩
  · intro fi a b c h
    simp only [cmp_nbr_headers, bind_ok_iff, pure_eq_ok, Except.ok.injEq] at h
    obtain ⟨a2, ha2, b2, hb2, c2, hc2, heq⟩ := h
    obtain ⟨rfl, rfl, rfl⟩ : a2 = a ∧ b2 = b ∧ c2 = c := by
      exact ⟨congrArg Prod.fst heq, congrArg Prod.fst (congrArg Prod.snd heq),
        congrArg Prod.snd (congrArg Prod.snd heq)⟩
    exact ⟨ha2, hb2, hc2⟩
  · intro fi ho sT eT mg cn det a b c n h1 h2
    simp only [internal_read_rg16]
    rw [h1, ok_bind, h2, ok_bind]
    rfl
  · intro fi pos n L ps h1 h2
    simp only [blockPositions] at h2
    rw [h1, ok_bind, bind_ok_iff] at h2
    obtain ⟨rest, hrest, h2⟩ := h2
    rw [pure_eq_ok] at h2
    exact ⟨rest, hrest, (Except.ok.inj h2).symm⟩

/-- C6 witness: the block geometry of `F262` (counts 1, 3, 0; block at 192 of
length `20 + 32*3 + 4*2 = 124`). -/
theorem claim_C6_witness :
    (∃ ne ns, readBinary F262 (192 + 9) 1 = .ok ne ∧
      readBinary F262 (192 + 27) 3 = .ok ns ∧ 124 = 20 + 32 * ne + 4 * ns) ∧
    (readBCD F262 28 1 = .ok 1 ∧ readBinary F262 37 2 = .ok 3 ∧
      readBinary F262 39 3 = .ok 0) ∧
    internal_read_rg16 F262 false 0 1000 false false false =
      (rg16_walk F262 false false false 0 1000 (32 * (2 + 1 + 3 + 0)) 1).bind
        (fun ts => if false then quick_merge ts else .ok ts) ∧
    (∃ rest, blockPositions F262 (192 + 124) 0 = .ok rest ∧ [192] = 192 :: rest) :=
  ⟨claim_C6.1 F262 192 124 (by decide),
   claim_C6.2.1 F262 1 3 0 (by decide),
   claim_C6.2.2.1 F262 false 0 1000 false false false 1 3 0 1 (by decide) (by decide),
   claim_C6.2.2.2 F262 192 0 124 [192] (by decide) (by decide)⟩

/-- C7 (amended): with `merge = false`, a well-formed source all of whose
trace-block start times fall outside the `[starttime, endtime)` window
decodes to an empty stream without error.  (With `merge = true` the empty
trace list fails `_quick_merge`'s sampling-rate assertion instead; see the
counterexample.) -/
theorem claim_C7 (fi : ByteSource) (ho cn det : Bool) (sT eT : ℚ)
    (a b c n : ℕ) (ps : List ℕ)
    (h1 : cmp_nbr_headers fi = .ok (a, b, c))
    (h2 : cmp_nbr_records fi = .ok n)
    (h3 : blockPositions fi (32 * (2 + a + b + c)) n = .ok ps)
    (h4 : ∀ p ∈ ps, ∃ t, blockTime fi p = .ok t ∧ ¬ (sT ≤ t ∧ t < eT)) :
    internal_read_rg16 fi ho sT eT false cn det = .ok [] := by
  simp only [internal_read_rg16]
  rw [h1, ok_bind, h2, ok_bind,
    rg16_walk_excluded fi ho cn det sT eT n (32 * (2 + a + b + c)) ps h3 h4, ok_bind]
  rfl

/-- C7 (counterexample): with `merge = true` and a window `[2, 2)` that
excludes `F262`'s only block, the call does not return an empty stream: it
fails on `_quick_merge`'s assertion over the empty trace list (the set of
sampling rates of zero traces does not have size 1). -/
theorem claim_C7_counterexample :
    internal_read_rg16 F262 false 2 2 true false false = .error .assertionError := by
  decide

/-- C7 witness: `F262` with the excluding window `[2, 2)` and
`merge = false` decodes to the empty stream. -/
theorem claim_C7_witness :
    internal_read_rg16 F262 false 2 2 false false false = .ok [] :=
  claim_C7 F262 false false false 2 2 1 3 0 1 [192] (by decide) (by decide) (by decide)
    (by
      intro p hp
      have hp192 : p = 192 := by simpa using hp
      subst hp192
      exact ⟨2, by decide, by decide⟩)

/-- C8: for every stats record produced by a successful `_make_stats`,
`endtime - starttime` equals `(npts - 1) / sampling_rate` — exactly in the
rational model of the source's arithmetic, hence within 10⁻⁹ s — where
`npts` is the 3-byte binary value at block offset 27 and `starttime` is the
8-byte microsecond timestamp at block offset 84 divided by 10⁶. -/
theorem claim_C8 (fi : ByteSource) (pos : ℕ) (so det : Bool) (st : RgStats)
    (h : make_stats fi pos so det = .ok st) :
    |st.endtime - st.starttime - ((st.npts : ℚ) - 1) / (st.sampling_rate : ℚ)|
      ≤ 1 / 1000000000 ∧
    readBinary fi (pos + 27) 3 = .ok st.npts ∧
    ∃ v, readBinary fi (pos + 84) 8 = .ok v ∧ st.starttime = (v : ℚ) / 1000000 := by
  obtain ⟨bsi, band, compv, comp, npts, sv, net, sta, loc, rg, hbsi, hz, hband, hcompv,
    _, _, hnpts, hsv, _, _, _, _, hsteq⟩ := make_stats_ok h
  subst hsteq
  refine ⟨?_, hnpts, ⟨sv, ?_, rfl⟩⟩
  · show |(sv : ℚ) / 1000000 + ((npts : ℚ) - 1) * (1 / ((16000 / bsi : ℕ) : ℚ))
        - (sv : ℚ) / 1000000 - ((npts : ℚ) - 1) / ((16000 / bsi : ℕ) : ℚ)|
      ≤ 1 / 1000000000
    have h0 : (sv : ℚ) / 1000000 + ((npts : ℚ) - 1) * (1 / ((16000 / bsi : ℕ) : ℚ))
        - (sv : ℚ) / 1000000 - ((npts : ℚ) - 1) / ((16000 / bsi : ℕ) : ℚ) = 0 := by
      ring
    rw [h0]
    norm_num
  · have hidx : pos + 20 + 2 * 32 = pos + 84 := by omega
    rw [← hidx]
    exact hsv

/-- C8 witness: the stats of `F262`'s trace. -/
theorem claim_C8_witness :
    |TR262.stats.endtime - TR262.stats.starttime
        - ((TR262.stats.npts : ℚ) - 1) / (TR262.stats.sampling_rate : ℚ)|
      ≤ 1 / 1000000000 ∧
    readBinary F262 (192 + 27) 3 = .ok TR262.stats.npts ∧
    ∃ v, readBinary F262 (192 + 84) 8 = .ok v ∧
      TR262.stats.starttime = (v : ℚ) / 1000000 :=
  claim_C8 F262 192 false false TR262.stats (by decide)

/-- C2 (the code evaluated at the failing input): `TA` and `TB` share the
trace id `1.1.0.DP2` and `TB` starts 1000 seconds after `TA` ends — far
beyond the tolerance `Δ = 1/500 + 10⁻⁶` — yet `_quick_merge` puts both rows
into one group and returns a single trace concatenating their samples.  The
claimed grouping rule (same id AND gap within `Δ`) requires two separate
output traces here: `cumsum(ids_different & within_tolerance)` starts a new
group only when the id changes AND the next pair is close, instead of when
the id changes OR the gap is too large. -/
theorem claim_C2_bug_eval :
    TA.id = TB.id ∧
    ¬ (|TB.stats.starttime - TA.stats.endtime| ≤ 1 / (500 : ℚ) + 1 / 1000000) ∧
    quick_merge [TA, TB] = .ok
      [{ data := [10, 20], dtype := ">f4",
         stats := { starttime := 0, endtime := 0, sampling_rate := 500, npts := 2,
                    network := "1", station := "1", location := "0", channel := "DP2",
                    rg16 := none } }] :=
  ⟨rfl, by decide, by decide⟩

/-- `_make_trace` with the `'Z'` branch of the data negation not taken:
when the channel's last letter is not `'Z'` the decoded samples are returned
unchanged. -/
theorem make_trace_build_notZ {fi : ByteSource} {pos : ℕ} {cn det : Bool} {st : RgStats}
    {ne ns : ℕ} {data0 : List ℕ}
    (hst : make_stats fi pos cn det = .ok st)
    (hne : readBinary fi (pos + 9) 1 = .ok ne)
    (hns : readBinary fi (pos + 27) 3 = .ok ns)
    (hIE : readIEEE fi (pos + 20 + ne * 32) (4 * ns) = .ok data0)
    (hnz : ¬ lastChar st.channel = some 'Z') :
    make_trace fi pos false cn det = .ok
      { data := data0, dtype := ">f4", stats := st } := by
  have hbuild := make_trace_build hst hne hns hIE
  rwa [if_neg hnz] at hbuild

/-- C4: with `contacts_north = true`, a decoded trace (headonly = false)
whose component byte (1 byte at block offset 40) equals 2 gets a channel
whose last letter is `'Z'` and data that is the element-wise sign flip
(IEEE-754 negation) of the `contacts_north = false` decode of the same
block; component bytes 3 and 4 map to `'N'` and `'E'` with the data equal to
the `contacts_north = false` decode. -/
theorem claim_C4 (fi : ByteSource) (pos : ℕ) (det : Bool) (c : ℕ) (tr : RgTrace)
    (hc : readBinary fi (pos + 40) 1 = .ok c)
    (h : make_trace fi pos false true det = .ok tr) :
    (c = 2 → lastChar tr.stats.channel = some 'Z' ∧
      ∃ tr2, make_trace fi pos false false det = .ok tr2 ∧
        tr.data = tr2.data.map negF32) ∧
    (c = 3 → lastChar tr.stats.channel = some 'N' ∧
      ∃ tr2, make_trace fi pos false false det = .ok tr2 ∧ tr.data = tr2.data) ∧
    (c = 4 → lastChar tr.stats.channel = some 'E' ∧
      ∃ tr2, make_trace fi pos false false det = .ok tr2 ∧ tr.data = tr2.data) := by
  obtain ⟨st, hst, hstats, _, hdat⟩ := make_trace_ok h
  obtain ⟨ne, ns, data0, hne, hns, hIE, _, hdata⟩ := hdat rfl
  obtain ⟨bsi, band, compv, comp, npts, sv, net, sta, loc, rg, hbsi, hbz, hband,
    hcompv, hcompT, _, hnpts, hsv, hnet, hsta, hloc, hrg, hsteq⟩ := make_stats_ok hst
  obtain rfl : c = compv := Except.ok.inj (hc.symm.trans hcompv)
  have hcomp := hcompT rfl
  have hchan : st.channel = band ++ "P" ++ comp := by rw [hsteq]
  rw [hchan] at hdata
  have hst2 := make_stats_build false hbsi hbz hband hcompv
    (fun hh => Bool.noConfusion hh) (fun _ => rfl) hnpts hsv hnet hsta hloc hrg
  obtain ⟨st2, hst2ok, hchan2⟩ :
      ∃ st2, make_stats fi pos false det = .ok st2 ∧
        st2.channel = band ++ "P" ++ Nat.repr c := ⟨_, hst2, rfl⟩
  refine ⟨?_, ?_, ?_⟩
  · rintro rfl
    obtain rfl : comp = "Z" :=
      Except.ok.inj (hcomp.symm.trans (by decide :
        standard_component_map (Nat.repr 2) = .ok "Z"))
    rcases band_map_ok hband with ⟨_, rfl⟩ | ⟨_, rfl⟩
    · refine ⟨by rw [hstats, hchan]; decide, ?_⟩
      have htr2 := make_trace_build_notZ hst2ok hne hns hIE (by rw [hchan2]; decide)
      refine ⟨_, htr2, ?_⟩
      rw [if_pos (by decide : lastChar ("G" ++ "P" ++ "Z") = some 'Z')] at hdata
      exact hdata
    · refine ⟨by rw [hstats, hchan]; decide, ?_⟩
      have htr2 := make_trace_build_notZ hst2ok hne hns hIE (by rw [hchan2]; decide)
      refine ⟨_, htr2, ?_⟩
      rw [if_pos (by decide : lastChar ("D" ++ "P" ++ "Z") = some 'Z')] at hdata
      exact hdata
  · rintro rfl
    obtain rfl : comp = "N" :=
      Except.ok.inj (hcomp.symm.trans (by decide :
        standard_component_map (Nat.repr 3) = .ok "N"))
    rcases band_map_ok hband with ⟨_, rfl⟩ | ⟨_, rfl⟩
    · refine ⟨by rw [hstats, hchan]; decide, ?_⟩
      have htr2 := make_trace_build_notZ hst2ok hne hns hIE (by rw [hchan2]; decide)
      refine ⟨_, htr2, ?_⟩
      rw [if_neg (by decide : ¬ lastChar ("G" ++ "P" ++ "N") = some 'Z')] at hdata
      exact hdata
    · refine ⟨by rw [hstats, hchan]; decide, ?_⟩
      have htr2 := make_trace_build_notZ hst2ok hne hns hIE (by rw [hchan2]; decide)
      refine ⟨_, htr2, ?_⟩
      rw [if_neg (by decide : ¬ lastChar ("D" ++ "P" ++ "N") = some 'Z')] at hdata
      exact hdata
  · rintro rfl
    obtain rfl : comp = "E" :=
      Except.ok.inj (hcomp.symm.trans (by decide :
        standard_component_map (Nat.repr 4) = .ok "E"))
    rcases band_map_ok hband with ⟨_, rfl⟩ | ⟨_, rfl⟩
    · refine ⟨by rw [hstats, hchan]; decide, ?_⟩
      have htr2 := make_trace_build_notZ hst2ok hne hns hIE (by rw [hchan2]; decide)
      refine ⟨_, htr2, ?_⟩
      rw [if_neg (by decide : ¬ lastChar ("G" ++ "P" ++ "E") = some 'Z')] at hdata
      exact hdata
    · refine ⟨by rw [hstats, hchan]; decide, ?_⟩
      have htr2 := make_trace_build_notZ hst2ok hne hns hIE (by rw [hchan2]; decide)
      refine ⟨_, htr2, ?_⟩
      rw [if_neg (by decide : ¬ lastChar ("D" ++ "P" ++ "E") = some 'Z')] at hdata
      exact hdata

/-- C4 witness: on `F262` (component byte 2, a vertical geophone), decoding
block 192 with `contacts_north = true` yields channel `DPZ` and the two
samples sign-flipped relative to the `contacts_north = false` decode. -/
theorem claim_C4_witness :
    readBinary F262 (192 + 40) 1 = .ok 2 ∧
    make_trace F262 192 false true false = .ok TRZ262 ∧
    (lastChar TRZ262.stats.channel = some 'Z' ∧
      ∃ tr2, make_trace F262 192 false false false = .ok tr2 ∧
        TRZ262.data = tr2.data.map negF32) :=
  ⟨by decide, by decide,
    (claim_C4 F262 192 false 2 TRZ262 (by decide) (by decide)).1 rfl⟩

/-- C9 witness: merging the contiguous traces `TA` and `TC` (same id, same
rate, same dtype) preserves the total `npts`. -/
theorem claim_C9_witness :
    ∃ out, quick_merge [TA, TC] = .ok out ∧
      (out.map (fun tr => tr.stats.npts)).sum
        = ([TA, TC].map (fun tr => tr.stats.npts)).sum :=
  quick_merge_preserves_total_npts [TA, TC] (by decide) (by decide) (by decide)
    (by decide) (by decide)

/-- C10: every successful decode (any option combination) reads the base
scan interval at absolute byte 22, every returned trace's sampling rate
equals `16000 / bsi` derived from that single byte (so all traces share it),
the rate is one of 2000, 1000, 500 or 250 Hz (any other derived rate fails
the whole call in `band_map`), and for a nonempty result the trace list
satisfies `_quick_merge`'s single-sampling-rate precondition. -/
theorem claim_C10 (fi : ByteSource) (ho mg cn det : Bool) (sT eT : ℚ)
    (ts : List RgTrace)
    (h : internal_read_rg16 fi ho sT eT mg cn det = .ok ts) :
    ∃ bsi, readBinary fi 22 1 = .ok bsi ∧
      (∀ tr ∈ ts, tr.stats.sampling_rate = 16000 / bsi ∧
        (tr.stats.sampling_rate = 2000 ∨ tr.stats.sampling_rate = 1000 ∨
          tr.stats.sampling_rate = 500 ∨ tr.stats.sampling_rate = 250)) ∧
      (ts ≠ [] →
        (ts.map (fun tr => tr.stats.sampling_rate)).dedup.length = 1) := by
  obtain ⟨a, b, c, n, ts0, _, hn, hwalk, hif⟩ := internal_read_decomp h
  obtain ⟨bsi, hbsi⟩ := cmp_nbr_records_reads_bsi hn
  have hall0 : ∀ tr ∈ ts0, tr.stats.sampling_rate = 16000 / bsi ∧
      (tr.stats.sampling_rate = 2000 ∨ tr.stats.sampling_rate = 1000 ∨
        tr.stats.sampling_rate = 500 ∨ tr.stats.sampling_rate = 250) := by
    intro tr htr
    obtain ⟨p, hp⟩ := rg16_walk_mem_make_trace hwalk tr htr
    obtain ⟨bsi2, hbsi2, hrate, hset⟩ := make_trace_rate hp
    obtain rfl : bsi2 = bsi := Except.ok.inj (hbsi2.symm.trans hbsi)
    refine ⟨hrate, ?_⟩
    rw [hrate]
    exact hset
  have hall : ∀ tr ∈ ts, tr.stats.sampling_rate = 16000 / bsi ∧
      (tr.stats.sampling_rate = 2000 ∨ tr.stats.sampling_rate = 1000 ∨
        tr.stats.sampling_rate = 500 ∨ tr.stats.sampling_rate = 250) := by
    cases mg with
    | false =>
      rw [if_neg (by decide : ¬ false = true)] at hif
      obtain rfl : ts0 = ts := Except.ok.inj hif
      exact hall0
    | true =>
      rw [if_pos rfl] at hif
      obtain ⟨_, hsrc⟩ := quick_merge_src hif
      intro tr htr
      obtain ⟨src, hsrcmem, hrateeq⟩ := hsrc tr htr
      obtain ⟨h1, h2⟩ := hall0 src hsrcmem
      rw [hrateeq]
      exact ⟨h1, h2⟩
  refine ⟨bsi, hbsi, hall, ?_⟩
  intro hne
  have hmapne : ts.map (fun tr => tr.stats.sampling_rate) ≠ [] := by
    cases ts with
    | nil => exact absurd rfl hne
    | cons x xs => simp
  have hmapall : ∀ x ∈ ts.map (fun tr => tr.stats.sampling_rate),
      x = 16000 / bsi := by
    intro x hx
    obtain ⟨tr, htr, rfl⟩ := List.mem_map.mp hx
    exact (hall tr htr).1
  rw [dedup_all_eq hmapne hmapall, List.length_singleton]

/-- C10 witness: decoding `F262` yields one trace at 500 Hz, `16000 / 32`
from the base scan interval byte 32 at offset 22, and the singleton rate
list has a one-element `dedup`. -/
theorem claim_C10_witness :
    internal_read_rg16 F262 false 0 1000 false false false = .ok [TR262] ∧
    ∃ bsi, readBinary F262 22 1 = .ok bsi ∧
      (∀ tr ∈ [TR262], tr.stats.sampling_rate = 16000 / bsi ∧
        (tr.stats.sampling_rate = 2000 ∨ tr.stats.sampling_rate = 1000 ∨
          tr.stats.sampling_rate = 500 ∨ tr.stats.sampling_rate = 250)) ∧
      (([TR262] : List RgTrace) ≠ [] →
        (([TR262] : List RgTrace).map
          (fun tr => tr.stats.sampling_rate)).dedup.length = 1) :=
  ⟨by decide,
    claim_C10 F262 false false false false 0 1000 [TR262] (by decide)⟩

end Rg16
